import Mathlib

/-!
Verification model of the Fortune-sweepline Voronoi diagram builder in
src/fortune/main.js.

JavaScript numbers are modelled exactly as reals extended with the IEEE
special values +Infinity, -Infinity and NaN; rounding is not modelled and
Math.sqrt is the exact real square root.  Arc objects live in an arena
(the arcs list of the diagram) and are referenced by index; object
identity on arcs and vertex events is index respectively value identity.
Site objects are compared by coordinate value, which coincides with the
source's object identity under the engine's distinct-input-sites
assumption.  Code paths on which the source would throw (dereference of
null or undefined) are modelled with Option, returning none.
-/

open scoped Classical

noncomputable section

namespace Fortune

/-- JSNum models a JavaScript number: a finite real or a special value. -/
inductive JSNum where
  | fin : ℝ → JSNum
  | posInf : JSNum
  | negInf : JSNum
  | nan : JSNum

instance : Inhabited JSNum := ⟨JSNum.fin 0⟩

/-- JavaScript unary minus. -/
def JSNum.neg : JSNum → JSNum
  | .fin a => .fin (-a)
  | .posInf => .negInf
  | .negInf => .posInf
  | .nan => .nan

/-- JavaScript addition (IEEE special-value rules, exact on finite values). -/
def JSNum.add : JSNum → JSNum → JSNum
  | .nan, _ => .nan
  | _, .nan => .nan
  | .posInf, .negInf => .nan
  | .negInf, .posInf => .nan
  | .posInf, _ => .posInf
  | _, .posInf => .posInf
  | .negInf, _ => .negInf
  | _, .negInf => .negInf
  | .fin a, .fin b => .fin (a + b)

/-- JavaScript subtraction. -/
def JSNum.sub (a b : JSNum) : JSNum := a.add b.neg

/-- JavaScript multiplication (IEEE special-value rules, exact on finite values). -/
def JSNum.mul : JSNum → JSNum → JSNum
  | .nan, _ => .nan
  | _, .nan => .nan
  | .posInf, .posInf => .posInf
  | .posInf, .negInf => .negInf
  | .negInf, .posInf => .negInf
  | .negInf, .negInf => .posInf
  | .posInf, .fin b => if b = 0 then .nan else if 0 < b then .posInf else .negInf
  | .fin a, .posInf => if a = 0 then .nan else if 0 < a then .posInf else .negInf
  | .negInf, .fin b => if b = 0 then .nan else if 0 < b then .negInf else .posInf
  | .fin a, .negInf => if a = 0 then .nan else if 0 < a then .negInf else .posInf
  | .fin a, .fin b => .fin (a * b)

/-- JavaScript division.  The model has a single (positive) zero; every
division by zero in the source arises from an exact x - x, which is +0 in
IEEE arithmetic, so this matches the source's behaviour. -/
def JSNum.div : JSNum → JSNum → JSNum
  | .nan, _ => .nan
  | _, .nan => .nan
  | .posInf, .posInf => .nan
  | .posInf, .negInf => .nan
  | .negInf, .posInf => .nan
  | .negInf, .negInf => .nan
  | .posInf, .fin b => if 0 ≤ b then .posInf else .negInf
  | .negInf, .fin b => if 0 ≤ b then .negInf else .posInf
  | .fin _, .posInf => .fin 0
  | .fin _, .negInf => .fin 0
  | .fin a, .fin b =>
      if b = 0 then (if a = 0 then .nan else if 0 < a then .posInf else .negInf)
      else .fin (a / b)

/-- Math.sqrt with the exact real square root on finite nonnegative values. -/
def JSNum.sqrt : JSNum → JSNum
  | .nan => .nan
  | .posInf => .posInf
  | .negInf => .nan
  | .fin a => if a < 0 then .nan else .fin (Real.sqrt a)

/-- The JavaScript strict less-than comparison (false on NaN). -/
def JSNum.lt : JSNum → JSNum → Prop
  | .nan, _ => False
  | _, .nan => False
  | .posInf, _ => False
  | .negInf, .negInf => False
  | .negInf, _ => True
  | .fin _, .negInf => False
  | .fin _, .posInf => True
  | .fin a, .fin b => a < b

/-- The JavaScript loose/strict equality on numbers (false on NaN). -/
def JSNum.numEq : JSNum → JSNum → Prop
  | .fin a, .fin b => a = b
  | .posInf, .posInf => True
  | .negInf, .negInf => True
  | _, _ => False

/-- Number.EPSILON, whose value is 2 to the power -52. -/
def JSNum.EPSILON : JSNum := .fin (1 / 2 ^ 52)

@[simp] theorem JSNum.neg_fin (a : ℝ) : JSNum.neg (.fin a) = .fin (-a) := rfl

@[simp] theorem JSNum.add_fin_fin (a b : ℝ) :
    JSNum.add (.fin a) (.fin b) = .fin (a + b) := rfl

@[simp] theorem JSNum.sub_fin_fin (a b : ℝ) :
    JSNum.sub (.fin a) (.fin b) = .fin (a - b) := by
  simp [JSNum.sub, JSNum.add, JSNum.neg, sub_eq_add_neg]

@[simp] theorem JSNum.mul_fin_fin (a b : ℝ) :
    JSNum.mul (.fin a) (.fin b) = .fin (a * b) := rfl

@[simp] theorem JSNum.lt_fin_fin (a b : ℝ) :
    JSNum.lt (.fin a) (.fin b) ↔ a < b := Iff.rfl

@[simp] theorem JSNum.numEq_fin_fin (a b : ℝ) :
    JSNum.numEq (.fin a) (.fin b) ↔ a = b := Iff.rfl

@[simp] theorem JSNum.numEq_fin_posInf (a : ℝ) :
    ¬ JSNum.numEq (.fin a) .posInf := fun h => h

@[simp] theorem JSNum.numEq_negInf_posInf : ¬ JSNum.numEq .negInf .posInf := fun h => h

@[simp] theorem JSNum.numEq_nan_posInf : ¬ JSNum.numEq .nan .posInf := fun h => h

@[simp] theorem JSNum.numEq_posInf_posInf : JSNum.numEq .posInf .posInf := trivial

@[simp] theorem JSNum.lt_nan_left (a : JSNum) : ¬ JSNum.lt .nan a := by
  cases a <;> exact fun h => h

@[simp] theorem JSNum.lt_nan_right (a : JSNum) : ¬ JSNum.lt a .nan := by
  cases a <;> exact fun h => h

@[simp] theorem JSNum.lt_fin_posInf (a : ℝ) : JSNum.lt (.fin a) .posInf := trivial

@[simp] theorem JSNum.lt_negInf_fin (a : ℝ) : JSNum.lt .negInf (.fin a) := trivial

@[simp] theorem JSNum.lt_posInf_left (a : JSNum) : ¬ JSNum.lt .posInf a := by
  cases a <;> exact fun h => h

@[simp] theorem JSNum.lt_fin_negInf (a : ℝ) : ¬ JSNum.lt (.fin a) .negInf := fun h => h

/-- A 2D coordinate, the source typedef Coordinate. -/
structure Coordinate where
  x : JSNum
  y : JSNum

instance : Inhabited Coordinate := ⟨⟨.fin 0, .fin 0⟩⟩

/-- parabolaPointY from the source: the y value of the parabola with the
given focus and horizontal directrix at xPos, computed after translating
the focus to the origin. -/
def parabolaPointY (focus : Coordinate) (directrix xPos : JSNum) : JSNum :=
  let d := JSNum.sub directrix focus.y
  let x := JSNum.sub xPos focus.x
  JSNum.add (JSNum.div (JSNum.sub (JSNum.mul d d) (JSNum.mul x x)) (JSNum.mul (.fin 2) d)) focus.y

/-- Array.prototype.sort keeps x no later than y unless the comparator is
positive; a NaN comparator value counts as zero and keeps the order. -/
def jsBefore {α : Type} (cmp : α → α → JSNum) (x y : α) : Prop :=
  ¬ JSNum.lt (.fin 0) (cmp x y)

/-- Array.prototype.sort modelled as the stable insertion sort with the
jsBefore relation of the comparator. -/
def jsSort {α : Type} (cmp : α → α → JSNum) (l : List α) : List α :=
  l.insertionSort (jsBefore cmp)

/-- The result record of circle: circumcentre and circumradius. -/
structure CircleResult where
  centre : Coordinate
  radius : JSNum

/-- The comparator circle sorts its three points with: ascending y, ties by
ascending x. -/
def circleCmp (a b : Coordinate) : JSNum :=
  if JSNum.numEq a.y b.y then JSNum.sub a.x b.x else JSNum.sub a.y b.y

/-- circle from the source: the circumcentre and circumradius of the triangle
abc, computed on the canonically sorted triple via the inverse gradients of
the perpendicular bisectors of ab and bc. -/
def circle (a0 b0 c0 : Coordinate) : CircleResult :=
  let sortedList := jsSort circleCmp [a0, b0, c0]
  let a := sortedList.getD 0 default
  let b := sortedList.getD 1 default
  let c := sortedList.getD 2 default
  let mabx := JSNum.div (JSNum.add a.x b.x) (.fin 2)
  let maby := JSNum.div (JSNum.add a.y b.y) (.fin 2)
  let mbcx := JSNum.div (JSNum.add b.x c.x) (.fin 2)
  let mbcy := JSNum.div (JSNum.add b.y c.y) (.fin 2)
  let igab := if JSNum.numEq (JSNum.sub b.y a.y) (.fin 0) then JSNum.posInf
    else JSNum.div (JSNum.sub a.x b.x) (JSNum.sub b.y a.y)
  let igbc := if JSNum.numEq (JSNum.sub c.y b.y) (.fin 0) then JSNum.posInf
    else JSNum.div (JSNum.sub b.x c.x) (JSNum.sub c.y b.y)
  let centre : Coordinate :=
    if JSNum.numEq igab JSNum.posInf then
      let xVal := mabx
      ⟨xVal, JSNum.add (JSNum.mul (JSNum.sub xVal mbcx) igbc) mbcy⟩
    else if JSNum.numEq igbc JSNum.posInf then
      let xVal := mbcx
      ⟨xVal, JSNum.add (JSNum.mul (JSNum.sub xVal mabx) igab) maby⟩
    else
      let xVal := JSNum.div
        (JSNum.sub (JSNum.add (JSNum.sub (JSNum.mul mabx igab) (JSNum.mul mbcx igbc)) mbcy) maby)
        (JSNum.sub igab igbc)
      ⟨xVal, JSNum.add (JSNum.mul (JSNum.sub xVal mabx) igab) maby⟩
  let radius := JSNum.sqrt (JSNum.add
    (JSNum.mul (JSNum.sub a.x centre.x) (JSNum.sub a.x centre.x))
    (JSNum.mul (JSNum.sub a.y centre.y) (JSNum.sub a.y centre.y)))
  ⟨centre, radius⟩

/-- getNormal from the source: the right-hand unit normal of a vector. -/
def getNormal (vector : Coordinate) : Coordinate :=
  let divisor := JSNum.sqrt (JSNum.add (JSNum.mul vector.x vector.x) (JSNum.mul vector.y vector.y))
  let unitVector : Coordinate := ⟨JSNum.div vector.x divisor, JSNum.div vector.y divisor⟩
  ⟨unitVector.y, JSNum.neg unitVector.x⟩

/-- distanceFromPlane from the source: signed perpendicular distance of point
from the directed line through a and b. -/
def distanceFromPlane (a b point : Coordinate) : JSNum :=
  let normal := getNormal ⟨JSNum.sub b.x a.x, JSNum.sub b.y a.y⟩
  let transformedPoint : Coordinate := ⟨JSNum.sub point.x a.x, JSNum.sub point.y a.y⟩
  JSNum.add (JSNum.mul normal.x transformedPoint.x) (JSNum.mul normal.y transformedPoint.y)

/-- bisectorY from the source: the y value of the perpendicular bisector of
ab at xVal, with Number.EPSILON substituted for a zero inverse-gradient
denominator. -/
def bisectorY (a b : Coordinate) (xVal : JSNum) : JSNum :=
  let midX := JSNum.div (JSNum.add a.x b.x) (.fin 2)
  let midY := JSNum.div (JSNum.add a.y b.y) (.fin 2)
  let inverseGrad :=
    if JSNum.numEq (JSNum.sub b.y a.y) (.fin 0) then JSNum.EPSILON
    else JSNum.div (JSNum.sub a.x b.x) (JSNum.sub b.y a.y)
  JSNum.add (JSNum.mul (JSNum.sub xVal midX) inverseGrad) midY

/-- A site event wraps the site coordinate. -/
structure SiteEvent where
  point : Coordinate

/-- A vertex event: the arc triple (by arc id), the event point at the top of
the circumcircle, and the circumcentre as vertex point. -/
structure VertexEvent where
  arcs : Nat × Nat × Nat
  eventPoint : Coordinate
  vertexPoint : Coordinate

/-- The record returned by PriorityQueue.pop. -/
structure EventResult where
  isSiteEvent : Bool
  siteEvent : Option SiteEvent
  vertexEvent : Option VertexEvent

/-- The event queue: two sequences whose last element is next to pop. -/
structure PriorityQueue where
  siteEvents : List SiteEvent
  vertexEvents : List VertexEvent

/-- The comparator of sortSites: descending y, ties by descending x. -/
def siteCmp (a b : SiteEvent) : JSNum :=
  if JSNum.numEq a.point.y b.point.y then JSNum.sub b.point.x a.point.x
  else if JSNum.lt b.point.y a.point.y then .fin (-1) else .fin 1

/-- The comparator of sortVertices: descending y, ties by descending x. -/
def vertexCmp (a b : VertexEvent) : JSNum :=
  if JSNum.numEq a.eventPoint.y b.eventPoint.y then JSNum.sub b.eventPoint.x a.eventPoint.x
  else JSNum.sub b.eventPoint.y a.eventPoint.y

/-- sortSites: sort the site sequence in descending order, the last element
being what is popped. -/
def PriorityQueue.sortSites (q : PriorityQueue) : PriorityQueue :=
  { q with siteEvents := jsSort siteCmp q.siteEvents }

/-- sortVertices: sort the vertex sequence in descending order. -/
def PriorityQueue.sortVertices (q : PriorityQueue) : PriorityQueue :=
  { q with vertexEvents := jsSort vertexCmp q.vertexEvents }

/-- pushSiteEvents: replace the site sequence and sort. -/
def PriorityQueue.pushSiteEvents (q : PriorityQueue) (values : List Coordinate) : PriorityQueue :=
  PriorityQueue.sortSites { q with siteEvents := values.map (fun c => ⟨c⟩) }

/-- pushVertexEvents: append and resort. -/
def PriorityQueue.pushVertexEvents (q : PriorityQueue) (values : List VertexEvent) : PriorityQueue :=
  PriorityQueue.sortVertices { q with vertexEvents := q.vertexEvents ++ values }

/-- removeVertexEvents: remove the given events (identity removal in the
source; value removal here, which agrees on the events the engine passes)
and resort. -/
def PriorityQueue.removeVertexEvents (q : PriorityQueue) (values : List VertexEvent) : PriorityQueue :=
  PriorityQueue.sortVertices
    { q with vertexEvents := q.vertexEvents.filter (fun e => decide (e ∉ values)) }

/-- isEmpty: both sequences are empty. -/
def PriorityQueue.isEmpty (q : PriorityQueue) : Bool :=
  q.siteEvents.isEmpty && q.vertexEvents.isEmpty

/-- pop from the source: take the last element of a sequence; when both
sequences are nonempty, compare the two last elements and, if the site
top's y is below the vertex top's y, deliver the site event (pushing the
vertex event back), otherwise deliver the vertex event. -/
def PriorityQueue.pop (q : PriorityQueue) : EventResult × PriorityQueue :=
  if q.vertexEvents = [] then
    (⟨true, q.siteEvents.getLast?, none⟩, { q with siteEvents := q.siteEvents.dropLast })
  else if q.siteEvents = [] then
    (⟨false, none, q.vertexEvents.getLast?⟩, { q with vertexEvents := q.vertexEvents.dropLast })
  else
    match q.siteEvents.getLast?, q.vertexEvents.getLast? with
    | some nextSiteEvent, some nextVertexEvent =>
      if JSNum.lt nextSiteEvent.point.y nextVertexEvent.eventPoint.y then
        (⟨true, some nextSiteEvent, none⟩, { q with siteEvents := q.siteEvents.dropLast })
      else
        (⟨false, none, some nextVertexEvent⟩, { q with vertexEvents := q.vertexEvents.dropLast })
    | _, _ => (⟨true, none, none⟩, q)

/-- The y of the event delivered by a pop, used to state the consumption
order of the queue. -/
def eventResultY (r : EventResult) : Option JSNum :=
  if r.isSiteEvent then r.siteEvent.map (fun s => s.point.y)
  else r.vertexEvent.map (fun v => v.eventPoint.y)

/-- An active site: its coordinate and the ids of the arcs it owns. -/
structure ActiveSite where
  site : Coordinate
  arcs : List Nat

instance : Inhabited ActiveSite := ⟨⟨default, []⟩⟩

/-- A beachline arc: owning active site (by index) and neighbour arc ids. -/
structure ParabolaArc where
  activeSite : Nat
  leftArc : Option Nat
  rightArc : Option Nat

instance : Inhabited ParabolaArc := ⟨⟨0, none, none⟩⟩

/-- An edge record: two faces and up to two vertices. -/
structure Edge where
  leftFace : Coordinate
  rightFace : Coordinate
  firstVertex : Option Coordinate
  lastVertex : Option Coordinate

instance : Inhabited Edge := ⟨⟨default, default, none, none⟩⟩

/-- The diagram state.  Arc objects live in the arcs arena and are referenced
by index; the source never frees an arc, so lookups are total. -/
structure VoronoiDiagram where
  activeSites : List ActiveSite
  edges : List Edge
  arcs : List ParabolaArc
  lineSweepPosition : JSNum
  queue : PriorityQueue

/-- Dereference an arc id. -/
def VoronoiDiagram.getArc (d : VoronoiDiagram) (arcId : Nat) : ParabolaArc :=
  d.arcs.getD arcId default

/-- The site coordinate of an arc's owning active site. -/
def VoronoiDiagram.arcSite (d : VoronoiDiagram) (arcId : Nat) : Coordinate :=
  (d.activeSites.getD (d.getArc arcId).activeSite default).site

/-- Mutate one arc record in the arena. -/
def VoronoiDiagram.setArc (d : VoronoiDiagram) (arcId : Nat)
    (f : ParabolaArc → ParabolaArc) : VoronoiDiagram :=
  { d with arcs := d.arcs.set arcId (f (d.getArc arcId)) }

/-- Reassign the arcs list of one active site. -/
def VoronoiDiagram.setActiveSiteArcs (d : VoronoiDiagram) (i : Nat)
    (newArcs : List Nat) : VoronoiDiagram :=
  { d with activeSites := d.activeSites.set i { d.activeSites.getD i default with arcs := newArcs } }

/-- The face-pair test of getEdge: either orientation matches. -/
def edgeMatches (a b : Coordinate) (e : Edge) : Prop :=
  (e.leftFace = a ∧ e.rightFace = b) ∨ (e.leftFace = b ∧ e.rightFace = a)

/-- getEdge from the source: Array.prototype.find, the first edge in
insertion order whose faces are a and b in either orientation. -/
def VoronoiDiagram.getEdge (d : VoronoiDiagram) (a b : Coordinate) : Option Edge :=
  d.edges.find? (fun e => decide (edgeMatches a b e))

/-- addVertexToEdge from the source: the slot is chosen by the sign of
distanceFromPlane; a populated slot is logged as a warning and then
overwritten. -/
def addVertexToEdge (edge : Edge) (vertex : Coordinate) : Edge :=
  if JSNum.lt (.fin 0) (distanceFromPlane edge.leftFace edge.rightFace vertex) then
    { edge with firstVertex := some vertex }
  else
    { edge with lastVertex := some vertex }

/-- updateEdge from the source: getEdge then addVertexToEdge on the found
edge (in place; modelled by updating the matching index).  When getEdge
finds nothing the source dereferences undefined, modelled as none. -/
def VoronoiDiagram.updateEdge (d : VoronoiDiagram) (leftArc rightArc vertex : Coordinate) :
    Option VoronoiDiagram :=
  match d.edges.findIdx? (fun e => decide (edgeMatches leftArc rightArc e)) with
  | none => none
  | some i => some { d with edges := d.edges.set i (addVertexToEdge (d.edges.getD i default) vertex) }

/-- removeArcTriples from the source: drop every queued vertex event whose
triple references the arc. -/
def VoronoiDiagram.removeArcTriples (d : VoronoiDiagram) (arc : Nat) : VoronoiDiagram :=
  let deadEvents := d.queue.vertexEvents.filter
    (fun e => decide (e.arcs.1 = arc ∨ e.arcs.2.1 = arc ∨ e.arcs.2.2 = arc))
  { d with queue := d.queue.removeVertexEvents deadEvents }

/-- getVertexEvent from the source.  none covers both the null returns of the
source and the crash on a missing neighbour. -/
def VoronoiDiagram.getVertexEvent (d : VoronoiDiagram) (arc : Nat) : Option VertexEvent :=
  match (d.getArc arc).leftArc, (d.getArc arc).rightArc with
  | some leftId, some rightId =>
    let leftSite := d.arcSite leftId
    let middleSite := d.arcSite arc
    let rightSite := d.arcSite rightId
    if leftSite = middleSite ∨ middleSite = rightSite ∨ leftSite = rightSite then none
    else if JSNum.lt rightSite.x leftSite.x then none
    else
      let circleResult := circle leftSite middleSite rightSite
      if JSNum.numEq circleResult.centre.x JSNum.posInf ∨
          JSNum.numEq circleResult.centre.y JSNum.posInf then none
      else
        let eventY := JSNum.add circleResult.centre.y circleResult.radius
        if JSNum.lt eventY d.lineSweepPosition then none
        else some ⟨(leftId, arc, rightId), ⟨circleResult.centre.x, eventY⟩, circleResult.centre⟩
  | _, _ => none

/-- updateVertexEventsForNewSite from the source: generate candidate vertex
events for the triples around the freshly inserted arc and push the
non-null ones. -/
def VoronoiDiagram.updateVertexEventsForNewSite (d : VoronoiDiagram) (arc : Nat) :
    Option VoronoiDiagram :=
  match (d.getArc arc).leftArc, (d.getArc arc).rightArc with
  | some leftId, some rightId =>
    let leftEvents : List (Option VertexEvent) :=
      match (d.getArc leftId).leftArc with
      | some leftLeftId =>
        [d.getVertexEvent leftId] ++
          (match (d.getArc leftLeftId).leftArc with
           | some _ => [d.getVertexEvent leftLeftId]
           | none => [])
      | none => []
    let rightEvents : List (Option VertexEvent) :=
      match (d.getArc rightId).rightArc with
      | some rightRightId =>
        [d.getVertexEvent rightId] ++
          (match (d.getArc rightRightId).rightArc with
           | some _ => [d.getVertexEvent rightRightId]
           | none => [])
      | none => []
    some { d with queue := d.queue.pushVertexEvents ((leftEvents ++ rightEvents).reduceOption) }
  | _, _ => none

/-- updateBeachLine from the source: replace the intersected arc by the
triple (left copy, new arc, right copy), fix the outer links, emit the new
edge, invalidate events of the destroyed arc and regenerate events. -/
def VoronoiDiagram.updateBeachLine (d : VoronoiDiagram) (newArc intersectedArc : Nat) :
    Option VoronoiDiagram :=
  let owner := (d.getArc intersectedArc).activeSite
  let ownerArcs := (d.activeSites.getD owner default).arcs.filter
    (fun a => decide (a ≠ intersectedArc))
  let intersectedArcLeftArc := (d.getArc intersectedArc).leftArc
  let intersectedArcRightArc := (d.getArc intersectedArc).rightArc
  let leftCopy := d.arcs.length
  let rightCopy := d.arcs.length + 1
  let d1 := { d with arcs := d.arcs ++
      ([⟨owner, intersectedArcLeftArc, some newArc⟩,
        ⟨owner, some newArc, intersectedArcRightArc⟩] : List ParabolaArc) }
  let d2 := d1.setArc newArc (fun a => { a with leftArc := some leftCopy, rightArc := some rightCopy })
  let d3 := d2.setActiveSiteArcs owner (ownerArcs ++ [leftCopy, rightCopy])
  let d4 := match intersectedArcLeftArc with
    | some l => d3.setArc l (fun a => { a with rightArc := some leftCopy })
    | none => d3
  let d5 := match intersectedArcRightArc with
    | some r => d4.setArc r (fun a => { a with leftArc := some rightCopy })
    | none => d4
  let d6 := { d5 with edges := d5.edges ++
      ([⟨d5.arcSite newArc, (d5.activeSites.getD owner default).site, none, none⟩] : List Edge) }
  let d7 := d6.removeArcTriples intersectedArc
  d7.updateVertexEventsForNewSite newArc

/-- The comparator insertSite sorts the split parabola's arc list with:
arcs ordered by the x of their right neighbour's site, a missing right
neighbour sorting last. -/
def arcCmp (d : VoronoiDiagram) (a b : Nat) : JSNum :=
  match (d.getArc a).rightArc, (d.getArc b).rightArc with
  | none, _ => .fin 1
  | _, none => .fin (-1)
  | some ra, some rb => JSNum.sub (d.arcSite ra).x (d.arcSite rb).x

/-- insertSite from the source: locate the closest parabola, pick the
containing arc (the forEach-with-return quirk keeps the last match),
insert the new arc via updateBeachLine and re-sort the split parabola's
arc list. -/
def VoronoiDiagram.insertSite (d : VoronoiDiagram) (site : Coordinate) : Option VoronoiDiagram :=
  let best := d.activeSites.enum.foldl
    (fun acc el =>
      let yDist := parabolaPointY el.2.site d.lineSweepPosition site.x
      if ¬ JSNum.numEq yDist JSNum.posInf ∧ JSNum.lt acc.1 yDist then (yDist, some el.1) else acc)
    ((JSNum.negInf : JSNum), (none : Option Nat))
  match best.2 with
  | none => none
  | some closest =>
    let closestArcs := (d.activeSites.getD closest default).arcs
    let found : Option (Option Nat) :=
      if closestArcs.length = 1 then some (some (closestArcs.getD 0 0))
      else
        closestArcs.dropLast.foldlM
          (fun acc arcId =>
            match (d.getArc arcId).rightArc with
            | none => none
            | some rId => some (if JSNum.lt site.x (d.arcSite rId).x then some arcId else acc))
          (none : Option Nat)
    match found with
    | none => none
    | some maybeArc =>
      let fallback : Option Nat :=
        match maybeArc with
        | some cArc => some cArc
        | none => closestArcs.getLast?
      match fallback with
      | none => none
      | some containingArc =>
        let newSiteIdx := d.activeSites.length
        let newArcId := d.arcs.length
        let d1 := { d with
          activeSites := d.activeSites ++ ([⟨site, [newArcId]⟩] : List ActiveSite),
          arcs := d.arcs ++ ([⟨newSiteIdx, none, none⟩] : List ParabolaArc) }
        match d1.updateBeachLine newArcId containingArc with
        | none => none
        | some d2 =>
          some (d2.setActiveSiteArcs closest
            (jsSort (arcCmp d2) (d2.activeSites.getD closest default).arcs))

/-- processVertexEvent from the source: delete the middle arc, relink its
neighbours, invalidate its events, emit the closing edge with the vertex
point assigned, and write the vertex point into the two flanking edges. -/
def VoronoiDiagram.processVertexEvent (d : VoronoiDiagram) (vertexEvent : VertexEvent) :
    Option VoronoiDiagram :=
  let leftArcId := vertexEvent.arcs.1
  let deletedArc := vertexEvent.arcs.2.1
  let rightArcId := vertexEvent.arcs.2.2
  let owner := (d.getArc deletedArc).activeSite
  let d1 := d.setActiveSiteArcs owner
    ((d.activeSites.getD owner default).arcs.filter (fun a => decide (a ≠ deletedArc)))
  let d2 := d1.setArc leftArcId (fun a => { a with rightArc := some rightArcId })
  let d3 := d2.setArc rightArcId (fun a => { a with leftArc := some leftArcId })
  let d4 := d3.removeArcTriples deletedArc
  let edge := addVertexToEdge
    (⟨d4.arcSite leftArcId, d4.arcSite rightArcId, none, none⟩ : Edge) vertexEvent.vertexPoint
  let d5 := { d4 with edges := d4.edges ++ [edge] }
  match d5.updateEdge (d5.arcSite leftArcId) (d5.arcSite deletedArc) vertexEvent.vertexPoint with
  | none => none
  | some d6 => d6.updateEdge (d6.arcSite deletedArc) (d6.arcSite rightArcId) vertexEvent.vertexPoint

/-- insertFirstSites from the source: pop the two seed sites and build the
three-arc bootstrap beachline and the initial edge. -/
def VoronoiDiagram.insertFirstSites (d : VoronoiDiagram) : Option VoronoiDiagram :=
  let p1 := d.queue.pop
  match p1.1.siteEvent with
  | none => none
  | some e1 =>
    let p2 := p1.2.pop
    match p2.1.siteEvent with
    | none => none
    | some e2 =>
      let firstSite := e1.point
      let secondSite := e2.point
      let base := d.arcs.length
      let firstIdx := d.activeSites.length
      let secondIdx := d.activeSites.length + 1
      some { d with
        queue := p2.2,
        activeSites := d.activeSites ++
          ([⟨firstSite, [base + 1, base + 2]⟩, ⟨secondSite, [base]⟩] : List ActiveSite),
        arcs := d.arcs ++
          ([⟨secondIdx, some (base + 1), some (base + 2)⟩,
            ⟨firstIdx, none, some base⟩,
            ⟨firstIdx, some base, none⟩] : List ParabolaArc),
        edges := d.edges ++ ([⟨firstSite, secondSite, none, none⟩] : List Edge) }

/-- computeStep from the source: pop the next event, move the sweepline to
its y and dispatch to the site or vertex handler. -/
def VoronoiDiagram.computeStep (d : VoronoiDiagram) : Option VoronoiDiagram :=
  let p := d.queue.pop
  let d0 := { d with queue := p.2 }
  if p.1.isSiteEvent then
    match p.1.siteEvent with
    | none => none
    | some se => VoronoiDiagram.insertSite { d0 with lineSweepPosition := se.point.y } se.point
  else
    match p.1.vertexEvent with
    | none => none
    | some ve => VoronoiDiagram.processVertexEvent { d0 with lineSweepPosition := ve.eventPoint.y } ve

/-- completeUnboundEdges from the source, as a function on the edge list:
an edge missing both vertices is logged and left alone; an edge missing one
vertex is extended to x equal to 100 or -100 on the bisector, choosing the
side of the faces' midpoint relative to the present vertex. -/
def completeUnboundEdges (edges : List Edge) : List Edge :=
  edges.map fun edge =>
    match edge.firstVertex, edge.lastVertex with
    | none, none => edge
    | none, some lastV =>
      let midpointX := JSNum.div (JSNum.add edge.leftFace.x edge.rightFace.x) (.fin 2)
      let direction := JSNum.sub midpointX lastV.x
      if JSNum.lt (.fin 0) direction then
        { edge with firstVertex := some (⟨.fin 100, bisectorY edge.leftFace edge.rightFace (.fin 100)⟩ : Coordinate) }
      else
        { edge with firstVertex := some (⟨.fin (-100), bisectorY edge.leftFace edge.rightFace (.fin (-100))⟩ : Coordinate) }
    | some firstV, none =>
      let midpointX := JSNum.div (JSNum.add edge.leftFace.x edge.rightFace.x) (.fin 2)
      let direction := JSNum.sub midpointX firstV.x
      if JSNum.lt (.fin 0) direction then
        { edge with lastVertex := some (⟨.fin 100, bisectorY edge.leftFace edge.rightFace (.fin 100)⟩ : Coordinate) }
      else
        { edge with lastVertex := some (⟨.fin (-100), bisectorY edge.leftFace edge.rightFace (.fin (-100))⟩ : Coordinate) }
    | some _, some _ => edge

/-- completeUnboundEdges applied to the diagram state. -/
def VoronoiDiagram.completeUnbound (d : VoronoiDiagram) : VoronoiDiagram :=
  { d with edges := completeUnboundEdges d.edges }

/-- The while loop of compute, with explicit fuel. -/
def VoronoiDiagram.computeLoop : Nat → VoronoiDiagram → Option VoronoiDiagram
  | 0, d => if d.queue.isEmpty then some d else none
  | fuel + 1, d =>
    if d.queue.isEmpty then some d
    else match d.computeStep with
      | none => none
      | some d2 => VoronoiDiagram.computeLoop fuel d2

/-- Fuel bound for the event loop: a site event consumes one site event and
pushes at most four vertex events, and a vertex event consumes at least one
vertex event. -/
def VoronoiDiagram.computeFuel (d : VoronoiDiagram) : Nat :=
  5 * d.queue.siteEvents.length + d.queue.vertexEvents.length + 1

/-- compute from the source: run the loop until the queue drains, then
finalize the unbounded edges. -/
def VoronoiDiagram.compute (d : VoronoiDiagram) : Option VoronoiDiagram :=
  (VoronoiDiagram.computeLoop d.computeFuel d).map VoronoiDiagram.completeUnbound

/-- The VoronoiDiagram constructor: seed the queue with all sites and run
the two-site bootstrap. -/
def VoronoiDiagram.create (sites : List Coordinate) : Option VoronoiDiagram :=
  VoronoiDiagram.insertFirstSites
    { activeSites := [], edges := [], arcs := [], lineSweepPosition := .fin 0,
      queue := PriorityQueue.pushSiteEvents ⟨[], []⟩ sites }

/-- An arc id is on the beachline when some active site's arc set contains
it (spec I2 equates the beachline with the union of the arc sets). -/
def onBeachline (d : VoronoiDiagram) (arcId : Nat) : Prop :=
  ∃ s ∈ d.activeSites, arcId ∈ s.arcs

/-- Link symmetry (spec I1): every beachline arc is the left neighbour of
its right neighbour and the right neighbour of its left neighbour. -/
def LinkSymmetric (d : VoronoiDiagram) : Prop :=
  ∀ arcId, onBeachline d arcId →
    (∀ r, (d.getArc arcId).rightArc = some r → (d.getArc r).leftArc = some arcId) ∧
    (∀ l, (d.getArc arcId).leftArc = some l → (d.getArc l).rightArc = some arcId)

/-- Arena well-formedness: beachline arcs and all neighbour links lie inside
the arena. -/
def ArcsInRange (d : VoronoiDiagram) : Prop :=
  (∀ arcId, onBeachline d arcId → arcId < d.arcs.length) ∧
  (∀ arcId l, (d.getArc arcId).leftArc = some l → l < d.arcs.length) ∧
  (∀ arcId r, (d.getArc arcId).rightArc = some r → r < d.arcs.length)

/-- Ownership: only the active-site entry an arc's record names carries the
arc in its arc set. -/
def ownedOnlyBy (d : VoronoiDiagram) (arcId : Nat) : Prop :=
  (d.getArc arcId).activeSite < d.activeSites.length ∧
  ∀ j, (hj : j < d.activeSites.length) → arcId ∈ (d.activeSites.get ⟨j, hj⟩).arcs →
    j = (d.getArc arcId).activeSite

/-! ## Claim theorems -/

/-- C9: for every pair of sites with equal y and every x, bisectorY does not
divide by zero or return an infinity: it returns the finite value
(x - (a.x + b.x) / 2) * g + (a.y + b.y) / 2 where the inverse gradient g is
Number.EPSILON, substituted for the zero denominator. -/
theorem C9_bisectorY_horizontal (ax ay bx x : ℝ) :
    bisectorY ⟨.fin ax, .fin ay⟩ ⟨.fin bx, .fin ay⟩ (.fin x) =
      .fin ((x - (ax + bx) / 2) * (1 / 2 ^ 52) + (ay + ay) / 2) := by
  simp [bisectorY, JSNum.div, JSNum.EPSILON]

/-- C7: finalization is idempotent: a second run of completeUnboundEdges on an
already finalized edge list changes no field of any edge. -/
theorem C7_completeUnboundEdges_idempotent (edges : List Edge) :
    completeUnboundEdges (completeUnboundEdges edges) = completeUnboundEdges edges := by
  unfold completeUnboundEdges
  rw [List.map_map]
  refine List.map_congr_left fun e _ => ?_
  rcases hf : e.firstVertex with _ | fv <;> rcases hl : e.lastVertex with _ | lv <;>
      simp only [Function.comp_apply, hf, hl]
  · split_ifs <;> simp [hf, hl]
  · split_ifs <;> simp [hf, hl]

/-- C6: at finalization, an edge missing only firstVertex receives the
endpoint with x equal to 100 when the faces' midpoint x is strictly greater
than lastVertex.x and -100 otherwise, with y given by bisectorY at that x;
symmetrically when only lastVertex is missing; an edge missing both vertices
is left unchanged. -/
theorem C6_completeUnboundEdges_missing_slot (edges : List Edge) (i : Nat)
    (lfx lfy rfx rfy vx vy : ℝ) :
    (edges[i]? = some ⟨⟨.fin lfx, .fin lfy⟩, ⟨.fin rfx, .fin rfy⟩, none, none⟩ →
      (completeUnboundEdges edges)[i]? =
        some ⟨⟨.fin lfx, .fin lfy⟩, ⟨.fin rfx, .fin rfy⟩, none, none⟩) ∧
    (edges[i]? =
        some ⟨⟨.fin lfx, .fin lfy⟩, ⟨.fin rfx, .fin rfy⟩, none, some ⟨.fin vx, .fin vy⟩⟩ →
      (completeUnboundEdges edges)[i]? =
        some (if (lfx + rfx) / 2 > vx then
          ⟨⟨.fin lfx, .fin lfy⟩, ⟨.fin rfx, .fin rfy⟩,
            some ⟨.fin 100, bisectorY ⟨.fin lfx, .fin lfy⟩ ⟨.fin rfx, .fin rfy⟩ (.fin 100)⟩,
            some ⟨.fin vx, .fin vy⟩⟩
        else
          ⟨⟨.fin lfx, .fin lfy⟩, ⟨.fin rfx, .fin rfy⟩,
            some ⟨.fin (-100), bisectorY ⟨.fin lfx, .fin lfy⟩ ⟨.fin rfx, .fin rfy⟩ (.fin (-100))⟩,
            some ⟨.fin vx, .fin vy⟩⟩)) ∧
    (edges[i]? =
        some ⟨⟨.fin lfx, .fin lfy⟩, ⟨.fin rfx, .fin rfy⟩, some ⟨.fin vx, .fin vy⟩, none⟩ →
      (completeUnboundEdges edges)[i]? =
        some (if (lfx + rfx) / 2 > vx then
          ⟨⟨.fin lfx, .fin lfy⟩, ⟨.fin rfx, .fin rfy⟩, some ⟨.fin vx, .fin vy⟩,
            some ⟨.fin 100, bisectorY ⟨.fin lfx, .fin lfy⟩ ⟨.fin rfx, .fin rfy⟩ (.fin 100)⟩⟩
        else
          ⟨⟨.fin lfx, .fin lfy⟩, ⟨.fin rfx, .fin rfy⟩, some ⟨.fin vx, .fin vy⟩,
            some ⟨.fin (-100), bisectorY ⟨.fin lfx, .fin lfy⟩ ⟨.fin rfx, .fin rfy⟩ (.fin (-100))⟩⟩)) := by
  unfold completeUnboundEdges
  refine ⟨fun h => ?_, fun h => ?_, fun h => ?_⟩ <;>
    rw [List.getElem?_map, h] <;> simp only [Option.map_some', Option.some.injEq] <;>
    [skip; skip] <;>
    by_cases hc : (lfx + rfx) / 2 > vx
  · rw [if_pos hc, if_pos (by simp [JSNum.div]; linarith)]
  · rw [if_neg hc, if_neg (by simp [JSNum.div]; exact le_of_not_lt hc)]
  · rw [if_pos hc, if_pos (by simp [JSNum.div]; linarith)]
  · rw [if_neg hc, if_neg (by simp [JSNum.div]; exact le_of_not_lt hc)]

/-- Witness for C6 at a concrete edge: the edge misses only its firstVertex
and the faces' midpoint x 1 is greater than the vertex x 0, so the new
endpoint is at x 100 on the bisector. -/
theorem C6_completeUnboundEdges_missing_slot_witness :
    (completeUnboundEdges
        [⟨⟨.fin 0, .fin 0⟩, ⟨.fin 2, .fin 2⟩, none, some ⟨.fin 0, .fin 3⟩⟩])[0]? =
      some ⟨⟨.fin 0, .fin 0⟩, ⟨.fin 2, .fin 2⟩,
        some ⟨.fin 100, bisectorY ⟨.fin 0, .fin 0⟩ ⟨.fin 2, .fin 2⟩ (.fin 100)⟩,
        some ⟨.fin 0, .fin 3⟩⟩ := by
  have h := (C6_completeUnboundEdges_missing_slot
      [⟨⟨.fin 0, .fin 0⟩, ⟨.fin 2, .fin 2⟩, none, some ⟨.fin 0, .fin 3⟩⟩] 0
      0 0 2 2 0 3).2.1 rfl
  rwa [if_pos (by norm_num)] at h

/-- C2 (amended): a vertex is written to firstVertex when the signed distance
from the face line is positive and to lastVertex otherwise; a populated
designated slot is overwritten after a logged warning, not dropped, and all
other fields are kept. -/
theorem C2_addVertexToEdge_assignment (edge : Edge) (vertex : Coordinate) :
    (JSNum.lt (.fin 0) (distanceFromPlane edge.leftFace edge.rightFace vertex) →
      addVertexToEdge edge vertex =
        ⟨edge.leftFace, edge.rightFace, some vertex, edge.lastVertex⟩) ∧
    (¬ JSNum.lt (.fin 0) (distanceFromPlane edge.leftFace edge.rightFace vertex) →
      addVertexToEdge edge vertex =
        ⟨edge.leftFace, edge.rightFace, edge.firstVertex, some vertex⟩) := by
  constructor <;> intro h <;> simp [addVertexToEdge, h]

/-- The concrete signed distance used by the C2 witness and counterexample. -/
theorem distanceFromPlane_example :
    distanceFromPlane ⟨.fin 0, .fin 0⟩ ⟨.fin 1, .fin 0⟩ ⟨.fin 0, .fin (-1)⟩ = .fin 1 := by
  simp [distanceFromPlane, getNormal, JSNum.sqrt, JSNum.div]
  norm_num [Real.sqrt_one]

/-- Witness for C2: a concrete positive-distance write into an edge whose
firstVertex slot is already populated overwrites that slot. -/
theorem C2_addVertexToEdge_assignment_witness :
    JSNum.lt (.fin 0) (distanceFromPlane ⟨.fin 0, .fin 0⟩ ⟨.fin 1, .fin 0⟩ ⟨.fin 0, .fin (-1)⟩) ∧
    addVertexToEdge (⟨⟨.fin 0, .fin 0⟩, ⟨.fin 1, .fin 0⟩, some ⟨.fin 5, .fin 5⟩, none⟩ : Edge)
        ⟨.fin 0, .fin (-1)⟩ =
      ⟨⟨.fin 0, .fin 0⟩, ⟨.fin 1, .fin 0⟩, some ⟨.fin 0, .fin (-1)⟩, none⟩ := by
  have hlt : JSNum.lt (.fin 0)
      (distanceFromPlane ⟨.fin 0, .fin 0⟩ ⟨.fin 1, .fin 0⟩ ⟨.fin 0, .fin (-1)⟩) := by
    rw [distanceFromPlane_example]; norm_num
  exact ⟨hlt, (C2_addVertexToEdge_assignment _ _).1 hlt⟩

/-- C2 counterexample: the claim says a second write into a populated slot is
dropped and the edge left unchanged; on this concrete edge the populated
firstVertex slot is overwritten instead. -/
theorem C2_addVertexToEdge_counterexample :
    addVertexToEdge (⟨⟨.fin 0, .fin 0⟩, ⟨.fin 1, .fin 0⟩, some ⟨.fin 5, .fin 5⟩, none⟩ : Edge)
        ⟨.fin 0, .fin (-1)⟩ ≠
      (⟨⟨.fin 0, .fin 0⟩, ⟨.fin 1, .fin 0⟩, some ⟨.fin 5, .fin 5⟩, none⟩ : Edge) := by
  simp [addVertexToEdge, distanceFromPlane_example]

/-- Helper: decomposition of a successful findIdx? search into the prefix of
non-matching elements, the first match, and the rest. -/
theorem findIdx?_decomp {α : Type} (p : α → Bool) :
    ∀ (l : List α) (i : Nat), l.findIdx? p = some i →
      ∃ pre x post, l = pre ++ x :: post ∧ i = pre.length ∧ p x = true ∧
        ∀ y ∈ pre, p y = false := by
  intro l
  induction l with
  | nil => intro i h; simp at h
  | cons b t ih =>
    intro i h
    rw [List.findIdx?_cons] at h
    by_cases hb : p b = true
    · rw [if_pos hb] at h
      injection h with h
      exact ⟨[], b, t, rfl, h.symm, hb, by simp⟩
    · rw [if_neg hb, List.findIdx?_succ] at h
      rcases Option.map_eq_some'.mp h with ⟨j, hj, rfl⟩
      rcases ih j hj with ⟨pre, x, post, rfl, rfl, hx, hpre⟩
      refine ⟨b :: pre, x, post, rfl, by simp, hx, ?_⟩
      intro y hy
      rcases List.mem_cons.mp hy with rfl | hy
      · exact eq_false_of_ne_true hb
      · exact hpre y hy

/-- C10: getEdge is orientation-insensitive and first-match: it returns the
earliest-inserted edge whose face pair is (a, b) or (b, a); and updateEdge,
the writer invoked at vertex events, adds its vertex point to exactly that
earliest edge and leaves every other edge, in particular any later edge
with the same two faces, unchanged. -/
theorem C10_getEdge_first_match (d : VoronoiDiagram) (a b : Coordinate) :
    (∀ e, d.getEdge a b = some e →
      edgeMatches a b e ∧
        ∃ pre post, d.edges = pre ++ e :: post ∧ ∀ x ∈ pre, ¬ edgeMatches a b x) ∧
    (∀ v d', d.updateEdge a b v = some d' →
      ∃ pre e post, d.edges = pre ++ e :: post ∧ edgeMatches a b e ∧
        (∀ x ∈ pre, ¬ edgeMatches a b x) ∧
        d'.edges = pre ++ addVertexToEdge e v :: post) := by
  constructor
  · intro e he
    rw [VoronoiDiagram.getEdge, List.find?_eq_some] at he
    obtain ⟨hpe, pre, post, hsplit, hpre⟩ := he
    refine ⟨of_decide_eq_true hpe, pre, post, hsplit, fun x hx => ?_⟩
    have := hpre x hx
    simpa using this
  · intro v d' hu
    rw [VoronoiDiagram.updateEdge] at hu
    rcases hf : d.edges.findIdx? (fun e => decide (edgeMatches a b e)) with _ | i
    · rw [hf] at hu; exact absurd hu (by simp)
    · rw [hf] at hu
      injection hu with hu
      rcases findIdx?_decomp _ _ _ hf with ⟨pre, x, post, hsplit, rfl, hx, hpre⟩
      refine ⟨pre, x, post, hsplit, of_decide_eq_true hx, fun y hy => by simpa using hpre y hy, ?_⟩
      subst hu
      show d.edges.set pre.length (addVertexToEdge (d.edges.getD pre.length default) v) = _
      rw [hsplit]
      have hget : (pre ++ x :: post).getD pre.length default = x := by
        rw [List.getD_eq_getElem?_getD, List.getElem?_append_right (le_refl _)]
        simp
      rw [hget, List.set_append]
      simp

/-- Witness for C10 on a concrete diagram whose edge list holds two edges
with the same unordered face pair: getEdge with the swapped orientation
still returns the earliest-inserted one, and updateEdge writes into it. -/
theorem C10_getEdge_first_match_witness :
    (edgeMatches ⟨.fin 0, .fin 0⟩ ⟨.fin 1, .fin 0⟩
        (⟨⟨.fin 1, .fin 0⟩, ⟨.fin 0, .fin 0⟩, none, none⟩ : Edge) ∧
      ∃ pre post,
        (⟨[], [⟨⟨.fin 1, .fin 0⟩, ⟨.fin 0, .fin 0⟩, none, none⟩,
              ⟨⟨.fin 0, .fin 0⟩, ⟨.fin 1, .fin 0⟩, none, none⟩], [], .fin 0, ⟨[], []⟩⟩ :
            VoronoiDiagram).edges = pre ++
            (⟨⟨.fin 1, .fin 0⟩, ⟨.fin 0, .fin 0⟩, none, none⟩ : Edge) :: post ∧
          ∀ x ∈ pre, ¬ edgeMatches ⟨.fin 0, .fin 0⟩ ⟨.fin 1, .fin 0⟩ x) := by
  refine (C10_getEdge_first_match
      (⟨[], [⟨⟨.fin 1, .fin 0⟩, ⟨.fin 0, .fin 0⟩, none, none⟩,
             ⟨⟨.fin 0, .fin 0⟩, ⟨.fin 1, .fin 0⟩, none, none⟩], [], .fin 0, ⟨[], []⟩⟩ :
        VoronoiDiagram) ⟨.fin 0, .fin 0⟩ ⟨.fin 1, .fin 0⟩).1 _ ?_
  rw [VoronoiDiagram.getEdge]
  have hp : (fun e => decide (edgeMatches ⟨.fin 0, .fin 0⟩ ⟨.fin 1, .fin 0⟩ e))
      (⟨⟨.fin 1, .fin 0⟩, ⟨.fin 0, .fin 0⟩, none, none⟩ : Edge) = true := by
    simp [edgeMatches]
  simp [List.find?_cons, hp]

/-- Helper: the pop branch with an empty vertex sequence. -/
theorem pop_vertexEmpty (q : PriorityQueue) (h : q.vertexEvents = []) :
    q.pop = (⟨true, q.siteEvents.getLast?, none⟩,
      { q with siteEvents := q.siteEvents.dropLast }) := by
  rw [PriorityQueue.pop, if_pos h]

/-- Helper: the pop branch with vertex events present and no site events. -/
theorem pop_siteEmpty (q : PriorityQueue) (h1 : q.vertexEvents ≠ []) (h2 : q.siteEvents = []) :
    q.pop = (⟨false, none, q.vertexEvents.getLast?⟩,
      { q with vertexEvents := q.vertexEvents.dropLast }) := by
  rw [PriorityQueue.pop, if_neg h1, if_pos h2]

/-- Helper: with both sequences nonempty and the site top strictly below the
vertex top, pop delivers the site event and pushes the vertex event back. -/
theorem pop_both_site (q : PriorityQueue) (s : SiteEvent) (v : VertexEvent)
    (hs : q.siteEvents.getLast? = some s) (hv : q.vertexEvents.getLast? = some v)
    (hlt : JSNum.lt s.point.y v.eventPoint.y) :
    q.pop = (⟨true, some s, none⟩, { q with siteEvents := q.siteEvents.dropLast }) := by
  have h1 : q.vertexEvents ≠ [] := fun h => by simp [h] at hv
  have h2 : q.siteEvents ≠ [] := fun h => by simp [h] at hs
  rw [PriorityQueue.pop, if_neg h1, if_neg h2, hs, hv]
  exact if_pos hlt

/-- Helper: with both sequences nonempty and the site top not strictly below
the vertex top, pop delivers the vertex event and pushes the site event
back. -/
theorem pop_both_vertex (q : PriorityQueue) (s : SiteEvent) (v : VertexEvent)
    (hs : q.siteEvents.getLast? = some s) (hv : q.vertexEvents.getLast? = some v)
    (hlt : ¬ JSNum.lt s.point.y v.eventPoint.y) :
    q.pop = (⟨false, none, some v⟩, { q with vertexEvents := q.vertexEvents.dropLast }) := by
  have h1 : q.vertexEvents ≠ [] := fun h => by simp [h] at hv
  have h2 : q.siteEvents ≠ [] := fun h => by simp [h] at hs
  rw [PriorityQueue.pop, if_neg h1, if_neg h2, hs, hv]
  exact if_neg hlt

/-- Helper: in a pairwise-related list, the last element of dropLast is
related to the last element. -/
theorem pairwise_getLast_dropLast {α : Type} {r : α → α → Prop} {l : List α} {a b : α}
    (hp : l.Pairwise r) (ha : l.getLast? = some a) (hb : l.dropLast.getLast? = some b) :
    r b a := by
  rcases List.getLast?_eq_some_iff.mp ha with ⟨ys, rfl⟩
  rw [List.dropLast_concat] at hb
  rcases List.getLast?_eq_some_iff.mp hb with ⟨zs, rfl⟩
  exact (List.pairwise_append.mp hp).2.2 b (by simp) a (by simp)

/-- C1 (amended): when both sequences are nonempty, pop returns whichever of
the two tops (the last, minimal elements of the descending-sorted sequences)
has the LOWER y, the vertex event winning ties; consequently events are
consumed in ascending y order, and the site sequence alone is consumed in
ascending (y, then x) lexicographic order. -/
theorem C1_pop_lower_y_first :
    (∀ (q : PriorityQueue) (s : SiteEvent) (v : VertexEvent),
      q.siteEvents.getLast? = some s → q.vertexEvents.getLast? = some v →
      (JSNum.lt s.point.y v.eventPoint.y →
        q.pop = (⟨true, some s, none⟩, { q with siteEvents := q.siteEvents.dropLast })) ∧
      (¬ JSNum.lt s.point.y v.eventPoint.y →
        q.pop = (⟨false, none, some v⟩,
          { q with vertexEvents := q.vertexEvents.dropLast }))) ∧
    (∀ (q : PriorityQueue) (y1 y2 : ℝ),
      q.siteEvents.Pairwise (fun a b => ¬ JSNum.lt a.point.y b.point.y) →
      q.vertexEvents.Pairwise (fun a b => ¬ JSNum.lt a.eventPoint.y b.eventPoint.y) →
      eventResultY q.pop.1 = some (.fin y1) →
      eventResultY q.pop.2.pop.1 = some (.fin y2) →
      y1 ≤ y2) ∧
    (∀ (q : PriorityQueue) (xs : List SiteEvent) (sa sb : SiteEvent) (xa ya xb yb : ℝ),
      q.vertexEvents = [] → q.siteEvents = xs ++ [sb, sa] →
      q.siteEvents.Pairwise (fun a b =>
        JSNum.lt b.point.y a.point.y ∨
          (a.point.y = b.point.y ∧ ¬ JSNum.lt a.point.x b.point.x)) →
      sa.point = ⟨.fin xa, .fin ya⟩ → sb.point = ⟨.fin xb, .fin yb⟩ →
      q.pop.1.siteEvent = some sa ∧ q.pop.2.pop.1.siteEvent = some sb ∧
        (ya < yb ∨ (ya = yb ∧ xa ≤ xb))) := by
  refine ⟨fun q s v hs hv => ⟨fun hlt => pop_both_site q s v hs hv hlt,
    fun hlt => pop_both_vertex q s v hs hv hlt⟩, ?_, ?_⟩
  · intro q y1 y2 hps hpv h1 h2
    by_cases hve : q.vertexEvents = []
    · rw [pop_vertexEmpty q hve] at h1 h2
      dsimp only at h1 h2
      simp only [eventResultY] at h1
      simp only [if_true, Option.map_eq_some'] at h1
      rcases h1 with ⟨s1, hs1, hy1⟩
      rw [pop_vertexEmpty ⟨q.siteEvents.dropLast, q.vertexEvents⟩ hve] at h2
      dsimp only at h2
      simp only [eventResultY, if_true, Option.map_eq_some'] at h2
      rcases h2 with ⟨s2, hs2, hy2⟩
      have hr := pairwise_getLast_dropLast hps hs1 hs2
      rw [hy1, hy2] at hr
      simp only [JSNum.lt_fin_fin, not_lt] at hr
      linarith
    · by_cases hse : q.siteEvents = []
      · rw [pop_siteEmpty q hve hse] at h1 h2
        dsimp only at h1 h2
        simp only [eventResultY, if_false, Bool.false_eq_true, Option.map_eq_some'] at h1
        rcases h1 with ⟨v1, hv1, hy1⟩
        by_cases hve2 : q.vertexEvents.dropLast = []
        · rw [pop_vertexEmpty ⟨q.siteEvents, q.vertexEvents.dropLast⟩ hve2] at h2
          dsimp only at h2
          simp only [eventResultY, if_true, Option.map_eq_some'] at h2
          rcases h2 with ⟨s2, hs2, hy2⟩
          rw [hse] at hs2
          simp at hs2
        · rw [pop_siteEmpty ⟨q.siteEvents, q.vertexEvents.dropLast⟩ hve2 hse] at h2
          dsimp only at h2
          simp only [eventResultY, if_false, Bool.false_eq_true, Option.map_eq_some'] at h2
          rcases h2 with ⟨v2, hv2, hy2⟩
          have hr := pairwise_getLast_dropLast hpv hv1 hv2
          rw [hy1, hy2] at hr
          simp only [JSNum.lt_fin_fin, not_lt] at hr
          linarith
      · rcases hsx : q.siteEvents.getLast? with _ | s
        · exact absurd (List.getLast?_eq_none_iff.mp hsx) hse
        rcases hvx : q.vertexEvents.getLast? with _ | v
        · exact absurd (List.getLast?_eq_none_iff.mp hvx) hve
        by_cases hlt : JSNum.lt s.point.y v.eventPoint.y
        · rw [pop_both_site q s v hsx hvx hlt] at h1 h2
          dsimp only at h1 h2
          simp only [eventResultY, if_true, Option.map_some', Option.some.injEq] at h1
          by_cases hse2 : q.siteEvents.dropLast = []
          · rw [pop_siteEmpty ⟨q.siteEvents.dropLast, q.vertexEvents⟩ hve hse2] at h2
            dsimp only at h2
            simp only [eventResultY, if_false, Bool.false_eq_true, Option.map_eq_some'] at h2
            rcases h2 with ⟨v2, hv2, hy2⟩
            rw [hvx] at hv2
            injection hv2 with hv2
            subst hv2
            rw [h1, hy2] at hlt
            simp only [JSNum.lt_fin_fin] at hlt
            linarith
          · rcases hs2x : q.siteEvents.dropLast.getLast? with _ | s2
            · exact absurd (List.getLast?_eq_none_iff.mp hs2x) hse2
            by_cases hlt2 : JSNum.lt s2.point.y v.eventPoint.y
            · rw [pop_both_site ⟨q.siteEvents.dropLast, q.vertexEvents⟩ s2 v hs2x hvx hlt2] at h2
              dsimp only at h2
              simp only [eventResultY, if_true, Option.map_some', Option.some.injEq] at h2
              have hr := pairwise_getLast_dropLast hps hsx hs2x
              rw [h1, h2] at hr
              simp only [JSNum.lt_fin_fin, not_lt] at hr
              linarith
            · rw [pop_both_vertex ⟨q.siteEvents.dropLast, q.vertexEvents⟩ s2 v hs2x hvx hlt2] at h2
              dsimp only at h2
              simp only [eventResultY, if_false, Bool.false_eq_true, Option.map_some',
                Option.some.injEq] at h2
              rw [h1, h2] at hlt
              simp only [JSNum.lt_fin_fin] at hlt
              linarith
        · rw [pop_both_vertex q s v hsx hvx hlt] at h1 h2
          dsimp only at h1 h2
          simp only [eventResultY, if_false, Bool.false_eq_true, Option.map_some',
            Option.some.injEq] at h1
          by_cases hve2 : q.vertexEvents.dropLast = []
          · rw [pop_vertexEmpty ⟨q.siteEvents, q.vertexEvents.dropLast⟩ hve2] at h2
            dsimp only at h2
            simp only [eventResultY, if_true, Option.map_eq_some'] at h2
            rcases h2 with ⟨s2, hs2, hy2⟩
            rw [hsx] at hs2
            injection hs2 with hs2
            subst hs2
            rw [hy2, h1] at hlt
            simp only [JSNum.lt_fin_fin, not_lt] at hlt
            linarith
          · rcases hv2x : q.vertexEvents.dropLast.getLast? with _ | v2
            · exact absurd (List.getLast?_eq_none_iff.mp hv2x) hve2
            by_cases hlt2 : JSNum.lt s.point.y v2.eventPoint.y
            · rw [pop_both_site ⟨q.siteEvents, q.vertexEvents.dropLast⟩ s v2 hsx hv2x hlt2] at h2
              dsimp only at h2
              simp only [eventResultY, if_true, Option.map_some', Option.some.injEq] at h2
              rw [h2, h1] at hlt
              simp only [JSNum.lt_fin_fin, not_lt] at hlt
              linarith
            · rw [pop_both_vertex ⟨q.siteEvents, q.vertexEvents.dropLast⟩ s v2 hsx hv2x hlt2] at h2
              dsimp only at h2
              simp only [eventResultY, if_false, Bool.false_eq_true, Option.map_some',
                Option.some.injEq] at h2
              have hr := pairwise_getLast_dropLast hpv hvx hv2x
              rw [h1, h2] at hr
              simp only [JSNum.lt_fin_fin, not_lt] at hr
              linarith
  · intro q xs sa sb xa ya xb yb hve hsplit hps hpa hpb
    have hxl : xs ++ [sb, sa] = (xs ++ [sb]) ++ [sa] := by simp
    rw [pop_vertexEmpty q hve,
      pop_vertexEmpty { q with siteEvents := q.siteEvents.dropLast } hve]
    refine ⟨?_, ?_, ?_⟩
    · simp only [hsplit, hxl, List.getLast?_concat]
    · simp only [hsplit, hxl, List.dropLast_concat, List.getLast?_concat]
    · have hr := by
        rw [hsplit, hxl] at hps
        exact (List.pairwise_append.mp hps).2.2 sb (by simp) sa (by simp)
      rw [hpa, hpb] at hr
      simp only [JSNum.lt_fin_fin, not_lt] at hr
      rcases hr with hr | ⟨hr1, hr2⟩
      · exact Or.inl hr
      · refine Or.inr ⟨?_, hr2⟩
        simp only [JSNum.fin.injEq] at hr1
        linarith
  
/-- C1 counterexample: the claim as stated fails on the code.  With both
sequences nonempty and the two tops at equal y, pop returns the vertex
event, not the site event; and with tops at site y 1 and vertex y 1/2 the
queue delivers y 1/2 before y 1 and later y 5, so consumption is ascending,
not descending, in y. -/
theorem C1_counterexample :
    ((⟨[⟨⟨.fin 0, .fin 1⟩⟩],
        [⟨(0, 0, 0), ⟨.fin 2, .fin 1⟩, ⟨.fin 0, .fin 0⟩⟩]⟩ :
          PriorityQueue).pop.1.isSiteEvent = false) ∧
    eventResultY (⟨[⟨⟨.fin 0, .fin 5⟩⟩, ⟨⟨.fin 0, .fin 1⟩⟩],
        [⟨(0, 0, 0), ⟨.fin 0, .fin (1/2)⟩, ⟨.fin 0, .fin 0⟩⟩]⟩ :
          PriorityQueue).pop.1 = some (.fin (1/2)) ∧
    eventResultY (⟨[⟨⟨.fin 0, .fin 5⟩⟩, ⟨⟨.fin 0, .fin 1⟩⟩],
        [⟨(0, 0, 0), ⟨.fin 0, .fin (1/2)⟩, ⟨.fin 0, .fin 0⟩⟩]⟩ :
          PriorityQueue).pop.2.pop.1 = some (.fin 1) ∧
    ((1:ℝ)/2 < 1) := by
  norm_num [PriorityQueue.pop, eventResultY]

/-- Witness for C1 at concrete queues: the equal-y tie goes to the vertex
event; consumption is ascending; and two equal-y sites pop in ascending x
order. -/
theorem C1_pop_lower_y_first_witness :
    ((⟨[⟨⟨.fin 0, .fin 1⟩⟩],
        [⟨(0, 0, 0), ⟨.fin 2, .fin 1⟩, ⟨.fin 0, .fin 0⟩⟩]⟩ : PriorityQueue).pop =
      (⟨false, none, some ⟨(0, 0, 0), ⟨.fin 2, .fin 1⟩, ⟨.fin 0, .fin 0⟩⟩⟩,
        ⟨[⟨⟨.fin 0, .fin 1⟩⟩], []⟩)) ∧
    ((1:ℝ)/2 ≤ 1) ∧
    ((⟨[⟨⟨.fin 2, .fin 0⟩⟩, ⟨⟨.fin 1, .fin 0⟩⟩], []⟩ : PriorityQueue).pop.1.siteEvent =
        some ⟨⟨.fin 1, .fin 0⟩⟩ ∧
      (⟨[⟨⟨.fin 2, .fin 0⟩⟩, ⟨⟨.fin 1, .fin 0⟩⟩], []⟩ :
          PriorityQueue).pop.2.pop.1.siteEvent = some ⟨⟨.fin 2, .fin 0⟩⟩ ∧
      ((0:ℝ) < 0 ∨ ((0:ℝ) = 0 ∧ (1:ℝ) ≤ 2))) := by
  refine ⟨(C1_pop_lower_y_first.1
      (⟨[⟨⟨.fin 0, .fin 1⟩⟩],
        [⟨(0, 0, 0), ⟨.fin 2, .fin 1⟩, ⟨.fin 0, .fin 0⟩⟩]⟩ : PriorityQueue)
      ⟨⟨.fin 0, .fin 1⟩⟩
      ⟨(0, 0, 0), ⟨.fin 2, .fin 1⟩, ⟨.fin 0, .fin 0⟩⟩ rfl rfl).2 (by norm_num), ?_, ?_⟩
  · refine C1_pop_lower_y_first.2.1
      (⟨[⟨⟨.fin 0, .fin 5⟩⟩, ⟨⟨.fin 0, .fin 1⟩⟩],
        [⟨(0, 0, 0), ⟨.fin 0, .fin (1/2)⟩, ⟨.fin 0, .fin 0⟩⟩]⟩ : PriorityQueue)
      (1/2) 1 (by norm_num) (by norm_num) (by norm_num [PriorityQueue.pop, eventResultY])
      (by norm_num [PriorityQueue.pop, eventResultY])
  · refine C1_pop_lower_y_first.2.2
      (⟨[⟨⟨.fin 2, .fin 0⟩⟩, ⟨⟨.fin 1, .fin 0⟩⟩], []⟩ : PriorityQueue)
      [] ⟨⟨.fin 1, .fin 0⟩⟩ ⟨⟨.fin 2, .fin 0⟩⟩ 1 0 2 0 rfl (by simp) (by norm_num) rfl rfl

/-- C4 (amended): getVertexEvent returns null when the computed circle centre
has an x or y equal to +Infinity (the code compares each coordinate with ==
Infinity); centres with -Infinity or NaN coordinates are not filtered. -/
theorem C4_getVertexEvent_posInf_centre (d : VoronoiDiagram) (arc leftId rightId : Nat)
    (hl : (d.getArc arc).leftArc = some leftId)
    (hr : (d.getArc arc).rightArc = some rightId)
    (hinf : JSNum.numEq
        (circle (d.arcSite leftId) (d.arcSite arc) (d.arcSite rightId)).centre.x JSNum.posInf ∨
      JSNum.numEq
        (circle (d.arcSite leftId) (d.arcSite arc) (d.arcSite rightId)).centre.y JSNum.posInf) :
    d.getVertexEvent arc = none := by
  rw [VoronoiDiagram.getVertexEvent, hl, hr]
  dsimp only
  split_ifs <;> rfl

/-- Witness for C4 at a concrete beachline of three vertically collinear
sites: the circle centre x is +Infinity and the event is rejected. -/
theorem C4_getVertexEvent_posInf_centre_witness :
    (circle ⟨.fin 0, .fin 0⟩ ⟨.fin 0, .fin 1⟩ ⟨.fin 0, .fin 2⟩).centre.x = JSNum.posInf ∧
    VoronoiDiagram.getVertexEvent
      ⟨[⟨⟨.fin 0, .fin 0⟩, [0]⟩, ⟨⟨.fin 0, .fin 1⟩, [1]⟩, ⟨⟨.fin 0, .fin 2⟩, [2]⟩], [],
        [⟨0, none, some 1⟩, ⟨1, some 0, some 2⟩, ⟨2, some 1, none⟩], .fin 0, ⟨[], []⟩⟩ 1
      = none := by
  have hx : (circle ⟨.fin 0, .fin 0⟩ ⟨.fin 0, .fin 1⟩ ⟨.fin 0, .fin 2⟩).centre.x
      = JSNum.posInf := by
    norm_num [circle, jsSort, jsBefore, List.insertionSort, List.orderedInsert, circleCmp,
      JSNum.lt, JSNum.numEq, JSNum.sub, JSNum.add, JSNum.neg, JSNum.div, JSNum.mul]
  refine ⟨hx, C4_getVertexEvent_posInf_centre _ 1 0 2 rfl rfl (Or.inl ?_)⟩
  show JSNum.numEq (circle ⟨.fin 0, .fin 0⟩ ⟨.fin 0, .fin 1⟩ ⟨.fin 0, .fin 2⟩).centre.x
    JSNum.posInf
  rw [hx]
  exact JSNum.numEq_posInf_posInf

/-- C4 counterexample: for three horizontally collinear sites the circle
centre y is -Infinity, a non-finite coordinate, yet getVertexEvent does not
return null: the == Infinity filter misses -Infinity and the later eventY
check compares NaN, which is false, so a garbage event is produced. -/
theorem C4_counterexample :
    (circle ⟨.fin 0, .fin 0⟩ ⟨.fin 1, .fin 0⟩ ⟨.fin 2, .fin 0⟩).centre.y = JSNum.negInf ∧
    VoronoiDiagram.getVertexEvent
      ⟨[⟨⟨.fin 0, .fin 0⟩, [0]⟩, ⟨⟨.fin 1, .fin 0⟩, [1]⟩, ⟨⟨.fin 2, .fin 0⟩, [2]⟩], [],
        [⟨0, none, some 1⟩, ⟨1, some 0, some 2⟩, ⟨2, some 1, none⟩], .fin 0, ⟨[], []⟩⟩ 1
      ≠ none := by
  have hc : (circle ⟨.fin 0, .fin 0⟩ ⟨.fin 1, .fin 0⟩ ⟨.fin 2, .fin 0⟩).centre
      = ⟨.fin (1/2), JSNum.negInf⟩ := by
    norm_num [circle, jsSort, jsBefore, List.insertionSort, List.orderedInsert, circleCmp,
      JSNum.lt, JSNum.numEq, JSNum.sub, JSNum.add, JSNum.neg, JSNum.div, JSNum.mul]
  refine ⟨by rw [hc], ?_⟩
  rw [VoronoiDiagram.getVertexEvent]
  norm_num [VoronoiDiagram.getArc, VoronoiDiagram.arcSite, hc, circle, jsSort, jsBefore,
    List.insertionSort, List.orderedInsert, circleCmp, JSNum.lt, JSNum.numEq, JSNum.sub,
    JSNum.add, JSNum.neg, JSNum.div, JSNum.mul, JSNum.sqrt]
  exact Option.some_ne_none _

/-- Helper: on finite points the circle comparator's sort relation is the
lexicographic (y ascending, x ascending) order. -/
theorem circleBefore_fin (px py qx qy : ℝ) :
    jsBefore circleCmp ⟨.fin px, .fin py⟩ ⟨.fin qx, .fin qy⟩ ↔
      (py < qy ∨ (py = qy ∧ px ≤ qx)) := by
  by_cases h : py = qy
  · simp [jsBefore, circleCmp, h]
  · simp only [jsBefore, circleCmp]
    simp [h]
    constructor
    · exact fun hle => lt_of_le_of_ne hle h
    · exact le_of_lt

/-- Helper: on distinct finite points exactly one orientation of the sort
relation holds. -/
theorem circleBefore_fin_asymm (px py qx qy : ℝ) (hne : ¬ (px = qx ∧ py = qy)) :
    jsBefore circleCmp ⟨.fin qx, .fin qy⟩ ⟨.fin px, .fin py⟩ ↔
      ¬ jsBefore circleCmp ⟨.fin px, .fin py⟩ ⟨.fin qx, .fin qy⟩ := by
  rw [circleBefore_fin, circleBefore_fin]
  constructor
  · rintro (h | ⟨h1, h2⟩) <;> rintro (h' | ⟨h1', h2'⟩) <;> try linarith
    exact hne ⟨le_antisymm h2' h2, h1'⟩
  · intro h
    rcases lt_trichotomy qy py with hlt | heq | hgt
    · exact Or.inl hlt
    · refine Or.inr ⟨heq, ?_⟩
      by_contra hx
      exact h (Or.inr ⟨heq.symm, le_of_not_le hx⟩)
    · exact absurd (Or.inl hgt) h

/-- Helper: swapping the two last arguments does not change the sorted
triple, provided the swapped points are distinct finite points. -/
theorem jsSort_swap_tail (a : Coordinate) (px py qx qy : ℝ)
    (hpq : ¬ (px = qx ∧ py = qy)) :
    jsSort circleCmp [a, ⟨.fin px, .fin py⟩, ⟨.fin qx, .fin qy⟩] =
      jsSort circleCmp [a, ⟨.fin qx, .fin qy⟩, ⟨.fin px, .fin py⟩] := by
  have hasym := circleBefore_fin_asymm px py qx qy hpq
  unfold jsSort
  simp only [List.insertionSort]
  by_cases h : jsBefore circleCmp ⟨.fin px, .fin py⟩ ⟨.fin qx, .fin qy⟩
  · rw [show List.orderedInsert (jsBefore circleCmp) ⟨.fin px, .fin py⟩
        (List.orderedInsert (jsBefore circleCmp) ⟨.fin qx, .fin qy⟩ []) =
      List.orderedInsert (jsBefore circleCmp) ⟨.fin qx, .fin qy⟩
        (List.orderedInsert (jsBefore circleCmp) ⟨.fin px, .fin py⟩ []) from by
      simp only [List.orderedInsert]
      rw [if_pos h, if_neg (by rw [hasym]; exact not_not_intro h)]]
  · rw [show List.orderedInsert (jsBefore circleCmp) ⟨.fin px, .fin py⟩
        (List.orderedInsert (jsBefore circleCmp) ⟨.fin qx, .fin qy⟩ []) =
      List.orderedInsert (jsBefore circleCmp) ⟨.fin qx, .fin qy⟩
        (List.orderedInsert (jsBefore circleCmp) ⟨.fin px, .fin py⟩ []) from by
      simp only [List.orderedInsert]
      rw [if_neg h, if_pos (hasym.mpr h)]]

/-- Helper: swapping the two first arguments does not change the sorted
triple, provided the three points are pairwise-distinct finite points. -/
theorem jsSort_swap_head (px py qx qy cx cy : ℝ)
    (hpq : ¬ (px = qx ∧ py = qy)) (hpc : ¬ (px = cx ∧ py = cy))
    (hqc : ¬ (qx = cx ∧ qy = cy)) :
    jsSort circleCmp [⟨.fin px, .fin py⟩, ⟨.fin qx, .fin qy⟩, ⟨.fin cx, .fin cy⟩] =
      jsSort circleCmp [⟨.fin qx, .fin qy⟩, ⟨.fin px, .fin py⟩, ⟨.fin cx, .fin cy⟩] := by
  have hpq' := circleBefore_fin_asymm px py qx qy hpq
  have hpc' := circleBefore_fin_asymm px py cx cy hpc
  have hqc' := circleBefore_fin_asymm qx qy cx cy hqc
  unfold jsSort
  simp only [List.insertionSort]
  by_cases h1 : jsBefore circleCmp ⟨.fin px, .fin py⟩ ⟨.fin qx, .fin qy⟩ <;>
    by_cases h2 : jsBefore circleCmp ⟨.fin px, .fin py⟩ ⟨.fin cx, .fin cy⟩ <;>
    by_cases h3 : jsBefore circleCmp ⟨.fin qx, .fin qy⟩ ⟨.fin cx, .fin cy⟩
  · simp [List.orderedInsert, h1, h2, h3, hpq', hpc', hqc']
  · simp [List.orderedInsert, h1, h2, h3, hpq', hpc', hqc']
  · exfalso
    rw [circleBefore_fin] at h1 h2 h3
    push_neg at h2
    rcases h1 with h | ⟨e, hx⟩ <;> rcases h3 with h' | ⟨e', hx'⟩ <;>
      [linarith [h2.1]; linarith [h2.1]; linarith [h2.1];
        linarith [hx, hx', h2.2 (by linarith)]]
  · simp [List.orderedInsert, h1, h2, h3, hpq', hpc', hqc']
  · simp [List.orderedInsert, h1, h2, h3, hpq', hpc', hqc']
  · exfalso
    rw [circleBefore_fin] at h2
    rw [circleBefore_fin] at h1 h3
    push_neg at h1 h3
    rcases h2 with h | ⟨e, hx⟩
    · linarith [h1.1, h3.1]
    · linarith [h1.1, h3.1, hx, h1.2 (by linarith), h3.2 (by linarith)]
  · simp [List.orderedInsert, h1, h2, h3, hpq', hpc', hqc']
  · simp [List.orderedInsert, h1, h2, h3, hpq', hpc', hqc']

/-- Helper: circle depends on its arguments only through the sorted triple. -/
theorem circle_eq_of_sort_eq {a b c d e f : Coordinate}
    (h : jsSort circleCmp [a, b, c] = jsSort circleCmp [d, e, f]) :
    circle a b c = circle d e f := by
  unfold circle
  rw [h]

/-- C5: for three pairwise-distinct finite points, circle returns the same
centre and radius for every permutation of its three arguments, because it
first sorts the points by ascending y with ties broken by ascending x. -/
theorem C5_circle_permutation_invariant (px py qx qy cx cy : ℝ)
    (hpq : ¬ (px = qx ∧ py = qy)) (hpc : ¬ (px = cx ∧ py = cy))
    (hqc : ¬ (qx = cx ∧ qy = cy)) :
    circle ⟨.fin px, .fin py⟩ ⟨.fin qx, .fin qy⟩ ⟨.fin cx, .fin cy⟩ =
        circle ⟨.fin qx, .fin qy⟩ ⟨.fin px, .fin py⟩ ⟨.fin cx, .fin cy⟩ ∧
      circle ⟨.fin px, .fin py⟩ ⟨.fin qx, .fin qy⟩ ⟨.fin cx, .fin cy⟩ =
        circle ⟨.fin px, .fin py⟩ ⟨.fin cx, .fin cy⟩ ⟨.fin qx, .fin qy⟩ ∧
      circle ⟨.fin px, .fin py⟩ ⟨.fin qx, .fin qy⟩ ⟨.fin cx, .fin cy⟩ =
        circle ⟨.fin qx, .fin qy⟩ ⟨.fin cx, .fin cy⟩ ⟨.fin px, .fin py⟩ ∧
      circle ⟨.fin px, .fin py⟩ ⟨.fin qx, .fin qy⟩ ⟨.fin cx, .fin cy⟩ =
        circle ⟨.fin cx, .fin cy⟩ ⟨.fin px, .fin py⟩ ⟨.fin qx, .fin qy⟩ ∧
      circle ⟨.fin px, .fin py⟩ ⟨.fin qx, .fin qy⟩ ⟨.fin cx, .fin cy⟩ =
        circle ⟨.fin cx, .fin cy⟩ ⟨.fin qx, .fin qy⟩ ⟨.fin px, .fin py⟩ := by
  have hcq : ¬ (cx = qx ∧ cy = qy) := fun hh => hqc ⟨hh.1.symm, hh.2.symm⟩
  have hcp : ¬ (cx = px ∧ cy = py) := fun hh => hpc ⟨hh.1.symm, hh.2.symm⟩
  have hqp : ¬ (qx = px ∧ qy = py) := fun hh => hpq ⟨hh.1.symm, hh.2.symm⟩
  have s1 : jsSort circleCmp
        [⟨.fin px, .fin py⟩, ⟨.fin qx, .fin qy⟩, ⟨.fin cx, .fin cy⟩] =
      jsSort circleCmp [⟨.fin qx, .fin qy⟩, ⟨.fin px, .fin py⟩, ⟨.fin cx, .fin cy⟩] :=
    jsSort_swap_head px py qx qy cx cy hpq hpc hqc
  have s2 : jsSort circleCmp
        [⟨.fin px, .fin py⟩, ⟨.fin qx, .fin qy⟩, ⟨.fin cx, .fin cy⟩] =
      jsSort circleCmp [⟨.fin px, .fin py⟩, ⟨.fin cx, .fin cy⟩, ⟨.fin qx, .fin qy⟩] :=
    jsSort_swap_tail _ qx qy cx cy hqc
  have s3 : jsSort circleCmp
        [⟨.fin qx, .fin qy⟩, ⟨.fin px, .fin py⟩, ⟨.fin cx, .fin cy⟩] =
      jsSort circleCmp [⟨.fin qx, .fin qy⟩, ⟨.fin cx, .fin cy⟩, ⟨.fin px, .fin py⟩] :=
    jsSort_swap_tail _ px py cx cy hpc
  have s4 : jsSort circleCmp
        [⟨.fin px, .fin py⟩, ⟨.fin cx, .fin cy⟩, ⟨.fin qx, .fin qy⟩] =
      jsSort circleCmp [⟨.fin cx, .fin cy⟩, ⟨.fin px, .fin py⟩, ⟨.fin qx, .fin qy⟩] :=
    jsSort_swap_head px py cx cy qx qy hpc hpq hcq
  have s5 : jsSort circleCmp
        [⟨.fin cx, .fin cy⟩, ⟨.fin px, .fin py⟩, ⟨.fin qx, .fin qy⟩] =
      jsSort circleCmp [⟨.fin cx, .fin cy⟩, ⟨.fin qx, .fin qy⟩, ⟨.fin px, .fin py⟩] :=
    jsSort_swap_tail _ px py qx qy hpq
  exact ⟨circle_eq_of_sort_eq s1, circle_eq_of_sort_eq s2,
    circle_eq_of_sort_eq (s1.trans s3), circle_eq_of_sort_eq (s2.trans s4),
    circle_eq_of_sort_eq ((s2.trans s4).trans s5)⟩

/-- Witness for C5 at the concrete distinct points (0,0), (1,0), (0,1). -/
theorem C5_circle_permutation_invariant_witness :
    circle ⟨.fin 0, .fin 0⟩ ⟨.fin 1, .fin 0⟩ ⟨.fin 0, .fin 1⟩ =
        circle ⟨.fin 1, .fin 0⟩ ⟨.fin 0, .fin 0⟩ ⟨.fin 0, .fin 1⟩ ∧
      circle ⟨.fin 0, .fin 0⟩ ⟨.fin 1, .fin 0⟩ ⟨.fin 0, .fin 1⟩ =
        circle ⟨.fin 0, .fin 0⟩ ⟨.fin 0, .fin 1⟩ ⟨.fin 1, .fin 0⟩ ∧
      circle ⟨.fin 0, .fin 0⟩ ⟨.fin 1, .fin 0⟩ ⟨.fin 0, .fin 1⟩ =
        circle ⟨.fin 1, .fin 0⟩ ⟨.fin 0, .fin 1⟩ ⟨.fin 0, .fin 0⟩ ∧
      circle ⟨.fin 0, .fin 0⟩ ⟨.fin 1, .fin 0⟩ ⟨.fin 0, .fin 1⟩ =
        circle ⟨.fin 0, .fin 1⟩ ⟨.fin 0, .fin 0⟩ ⟨.fin 1, .fin 0⟩ ∧
      circle ⟨.fin 0, .fin 0⟩ ⟨.fin 1, .fin 0⟩ ⟨.fin 0, .fin 1⟩ =
        circle ⟨.fin 0, .fin 1⟩ ⟨.fin 1, .fin 0⟩ ⟨.fin 0, .fin 0⟩ :=
  C5_circle_permutation_invariant 0 0 1 0 0 1
    (by norm_num) (by norm_num) (by norm_num)

/-- C3 (amended): for two distinct input sites, compute() produces exactly
one edge whose faces are the two sites, and finalization leaves BOTH of its
endpoints absent: the single bootstrap edge reaches completeUnboundEdges
with no vertices and the missing-both case is left unchanged, so no
endpoint is ever placed at x = 100 or x = -100. -/
theorem C3_two_sites (a b : Coordinate) (_hab : a ≠ b) :
    ∃ d, (VoronoiDiagram.create [a, b]).bind VoronoiDiagram.compute = some d ∧
      (d.edges = [⟨a, b, none, none⟩] ∨ d.edges = [⟨b, a, none, none⟩]) := by
  have hqa : VoronoiDiagram.create [a, b] = VoronoiDiagram.insertFirstSites
      ⟨[], [], [], .fin 0, ⟨jsSort siteCmp [⟨a⟩, ⟨b⟩], []⟩⟩ := rfl
  by_cases hr : jsBefore siteCmp ⟨a⟩ ⟨b⟩
  · have hsort : jsSort siteCmp [⟨a⟩, ⟨b⟩] = [⟨a⟩, ⟨b⟩] := by
      simp only [jsSort, List.insertionSort, List.orderedInsert]
      rw [if_pos hr]
    have hp1 : (⟨[⟨a⟩, ⟨b⟩], []⟩ : PriorityQueue).pop =
        (⟨true, some ⟨b⟩, none⟩, ⟨[⟨a⟩], []⟩) := pop_vertexEmpty _ rfl
    have hp2 : (⟨[⟨a⟩], []⟩ : PriorityQueue).pop =
        (⟨true, some ⟨a⟩, none⟩, ⟨[], []⟩) := pop_vertexEmpty _ rfl
    have hifs : VoronoiDiagram.insertFirstSites ⟨[], [], [], .fin 0, ⟨[⟨a⟩, ⟨b⟩], []⟩⟩ =
        some ⟨[⟨b, [1, 2]⟩, ⟨a, [0]⟩], [⟨b, a, none, none⟩],
          [⟨1, some 1, some 2⟩, ⟨0, none, some 0⟩, ⟨0, some 0, none⟩], .fin 0, ⟨[], []⟩⟩ := by
      rw [VoronoiDiagram.insertFirstSites]
      simp only [hp1, hp2]
      rfl
    refine ⟨⟨[⟨b, [1, 2]⟩, ⟨a, [0]⟩], [⟨b, a, none, none⟩],
      [⟨1, some 1, some 2⟩, ⟨0, none, some 0⟩, ⟨0, some 0, none⟩], .fin 0, ⟨[], []⟩⟩,
      ?_, Or.inr rfl⟩
    rw [hqa, hsort, hifs]
    rfl
  · have hsort : jsSort siteCmp [⟨a⟩, ⟨b⟩] = [⟨b⟩, ⟨a⟩] := by
      simp only [jsSort, List.insertionSort, List.orderedInsert]
      rw [if_neg hr]
    have hp1 : (⟨[⟨b⟩, ⟨a⟩], []⟩ : PriorityQueue).pop =
        (⟨true, some ⟨a⟩, none⟩, ⟨[⟨b⟩], []⟩) := pop_vertexEmpty _ rfl
    have hp2 : (⟨[⟨b⟩], []⟩ : PriorityQueue).pop =
        (⟨true, some ⟨b⟩, none⟩, ⟨[], []⟩) := pop_vertexEmpty _ rfl
    have hifs : VoronoiDiagram.insertFirstSites ⟨[], [], [], .fin 0, ⟨[⟨b⟩, ⟨a⟩], []⟩⟩ =
        some ⟨[⟨a, [1, 2]⟩, ⟨b, [0]⟩], [⟨a, b, none, none⟩],
          [⟨1, some 1, some 2⟩, ⟨0, none, some 0⟩, ⟨0, some 0, none⟩], .fin 0, ⟨[], []⟩⟩ := by
      rw [VoronoiDiagram.insertFirstSites]
      simp only [hp1, hp2]
      rfl
    refine ⟨⟨[⟨a, [1, 2]⟩, ⟨b, [0]⟩], [⟨a, b, none, none⟩],
      [⟨1, some 1, some 2⟩, ⟨0, none, some 0⟩, ⟨0, some 0, none⟩], .fin 0, ⟨[], []⟩⟩,
      ?_, Or.inl rfl⟩
    rw [hqa, hsort, hifs]
    rfl

/-- Witness for C3 at the concrete two-site input (0,0), (2,0). -/
theorem C3_two_sites_witness :
    ∃ d, (VoronoiDiagram.create [⟨.fin 0, .fin 0⟩, ⟨.fin 2, .fin 0⟩]).bind
        VoronoiDiagram.compute = some d ∧
      (d.edges = [⟨⟨.fin 0, .fin 0⟩, ⟨.fin 2, .fin 0⟩, none, none⟩] ∨
        d.edges = [⟨⟨.fin 2, .fin 0⟩, ⟨.fin 0, .fin 0⟩, none, none⟩]) :=
  C3_two_sites _ _ (by simp)

/-- C3 counterexample: on the two sites (0,0) and (2,0) of the claim's own
scenario, the single edge produced by compute() still has NO endpoints after
finalization, instead of endpoints at x = 100 and x = -100: the edge misses
both vertices and completeUnboundEdges leaves such an edge alone. -/
theorem C3_counterexample :
    ((VoronoiDiagram.create [⟨.fin 0, .fin 0⟩, ⟨.fin 2, .fin 0⟩]).bind
        VoronoiDiagram.compute).map
        (fun d => d.edges.map fun e => (e.firstVertex, e.lastVertex)) =
      some [(none, none)] := by
  have hr : ¬ jsBefore siteCmp ⟨⟨.fin 0, .fin 0⟩⟩ ⟨⟨.fin 2, .fin 0⟩⟩ := by
    norm_num [jsBefore, siteCmp]
  have hqa : VoronoiDiagram.create [⟨.fin 0, .fin 0⟩, ⟨.fin 2, .fin 0⟩] =
      VoronoiDiagram.insertFirstSites ⟨[], [], [], .fin 0,
        ⟨jsSort siteCmp [⟨⟨.fin 0, .fin 0⟩⟩, ⟨⟨.fin 2, .fin 0⟩⟩], []⟩⟩ := rfl
  have hsort : jsSort siteCmp [⟨⟨.fin 0, .fin 0⟩⟩, ⟨⟨.fin 2, .fin 0⟩⟩] =
      [⟨⟨.fin 2, .fin 0⟩⟩, ⟨⟨.fin 0, .fin 0⟩⟩] := by
    simp only [jsSort, List.insertionSort, List.orderedInsert]
    rw [if_neg hr]
  have hp1 : (⟨[⟨⟨.fin 2, .fin 0⟩⟩, ⟨⟨.fin 0, .fin 0⟩⟩], []⟩ : PriorityQueue).pop =
      (⟨true, some ⟨⟨.fin 0, .fin 0⟩⟩, none⟩, ⟨[⟨⟨.fin 2, .fin 0⟩⟩], []⟩) :=
    pop_vertexEmpty _ rfl
  have hp2 : (⟨[⟨⟨.fin 2, .fin 0⟩⟩], []⟩ : PriorityQueue).pop =
      (⟨true, some ⟨⟨.fin 2, .fin 0⟩⟩, none⟩, ⟨[], []⟩) := pop_vertexEmpty _ rfl
  have hifs : VoronoiDiagram.insertFirstSites ⟨[], [], [], .fin 0,
      ⟨[⟨⟨.fin 2, .fin 0⟩⟩, ⟨⟨.fin 0, .fin 0⟩⟩], []⟩⟩ =
      some ⟨[⟨⟨.fin 0, .fin 0⟩, [1, 2]⟩, ⟨⟨.fin 2, .fin 0⟩, [0]⟩],
        [⟨⟨.fin 0, .fin 0⟩, ⟨.fin 2, .fin 0⟩, none, none⟩],
        [⟨1, some 1, some 2⟩, ⟨0, none, some 0⟩, ⟨0, some 0, none⟩], .fin 0, ⟨[], []⟩⟩ := by
    rw [VoronoiDiagram.insertFirstSites]
    simp only [hp1, hp2]
    rfl
  rw [hqa, hsort, hifs]
  rfl

/-- Helper: reading a mutated arena slot. -/
theorem getArc_set_eq (d : VoronoiDiagram) (i : Nat) (f : ParabolaArc → ParabolaArc)
    (hi : i < d.arcs.length) : (d.setArc i f).getArc i = f (d.getArc i) := by
  simp [VoronoiDiagram.setArc, VoronoiDiagram.getArc, List.getD_eq_getElem?_getD,
    List.getElem?_set, hi]

/-- Helper: reading an arena slot other than the mutated one. -/
theorem getArc_set_ne (d : VoronoiDiagram) (i : Nat) (f : ParabolaArc → ParabolaArc)
    (t : Nat) (ht : t ≠ i) : (d.setArc i f).getArc t = d.getArc t := by
  simp only [VoronoiDiagram.setArc, VoronoiDiagram.getArc, List.getD_eq_getElem?_getD,
    List.getElem?_set]
  rw [if_neg (fun hh => ht hh.symm)]

/-- Helper: an old slot is unchanged by appending to the arena. -/
theorem getArc_append_old (d : VoronoiDiagram) (new : List ParabolaArc) (t : Nat)
    (ht : t < d.arcs.length) :
    ({ d with arcs := d.arcs ++ new } : VoronoiDiagram).getArc t = d.getArc t := by
  simp only [VoronoiDiagram.getArc, List.getD_eq_getElem?_getD]
  rw [List.getElem?_append_left ht]

/-- Helper: the first of two appended arena slots. -/
theorem getArc_append_two_fst (d : VoronoiDiagram) (x y : ParabolaArc) :
    ({ d with arcs := d.arcs ++ [x, y] } : VoronoiDiagram).getArc d.arcs.length = x := by
  simp only [VoronoiDiagram.getArc, List.getD_eq_getElem?_getD]
  rw [List.getElem?_append_right (le_refl _)]
  simp

/-- Helper: the second of two appended arena slots. -/
theorem getArc_append_two_snd (d : VoronoiDiagram) (x y : ParabolaArc) :
    ({ d with arcs := d.arcs ++ [x, y] } : VoronoiDiagram).getArc (d.arcs.length + 1) = y := by
  simp only [VoronoiDiagram.getArc, List.getD_eq_getElem?_getD]
  rw [List.getElem?_append_right (by omega)]
  simp

/-- Helper: link symmetry only depends on the active sites and the arena. -/
theorem linkSym_of_eq (d1 d2 : VoronoiDiagram) (ha : d2.activeSites = d1.activeSites)
    (hr : d2.arcs = d1.arcs) (h : LinkSymmetric d1) : LinkSymmetric d2 := by
  intro arcId hBL
  have hBL1 : onBeachline d1 arcId := by
    rcases hBL with ⟨s, hs, hm⟩
    exact ⟨s, ha ▸ hs, hm⟩
  have hg : ∀ t, d2.getArc t = d1.getArc t := fun t => by
    simp [VoronoiDiagram.getArc, hr]
  rcases h arcId hBL1 with ⟨h1, h2⟩
  refine ⟨fun r hrr => ?_, fun l hll => ?_⟩
  · rw [hg] at hrr ⊢; exact h1 r hrr
  · rw [hg] at hll ⊢; exact h2 l hll

/-- Helper: updateVertexEventsForNewSite only changes the queue. -/
theorem updateVertexEvents_fields (d : VoronoiDiagram) (arc : Nat) (d2 : VoronoiDiagram)
    (h : d.updateVertexEventsForNewSite arc = some d2) :
    d2.activeSites = d.activeSites ∧ d2.arcs = d.arcs := by
  rw [VoronoiDiagram.updateVertexEventsForNewSite] at h
  rcases hl : (d.getArc arc).leftArc with _ | leftId <;> rw [hl] at h
  · simp at h
  rcases hr : (d.getArc arc).rightArc with _ | rightId <;> rw [hr] at h
  · simp at h
  dsimp only at h
  injection h with h
  subst h
  exact ⟨rfl, rfl⟩

/-- C8 helper: the bootstrap produces a link-symmetric beachline. -/
theorem linkSym_insertFirstSites (d d2 : VoronoiDiagram)
    (hsites : d.activeSites = []) (harcs : d.arcs = [])
    (h : d.insertFirstSites = some d2) : LinkSymmetric d2 := by
  rw [VoronoiDiagram.insertFirstSites] at h
  rcases hp1 : d.queue.pop.1.siteEvent with _ | e1 <;> rw [hp1] at h <;>
    dsimp only at h
  · simp at h
  rcases hp2 : d.queue.pop.2.pop.1.siteEvent with _ | e2 <;> rw [hp2] at h <;>
    dsimp only at h
  · simp at h
  injection h with h
  subst h
  intro arcId hBL
  rcases hBL with ⟨s, hs, hm⟩
  simp only [hsites, harcs, List.nil_append, List.length_nil, Nat.zero_add, List.mem_cons,
    List.not_mem_nil, or_false] at hs hm ⊢
  have harc : arcId = 0 ∨ arcId = 1 ∨ arcId = 2 := by
    rcases hs with rfl | rfl
    · simp at hm
      omega
    · simp at hm
      omega
  clear hs hm
  rcases harc with rfl | rfl | rfl <;>
    constructor <;>
    intro z hz <;>
    first
    | (injection hz with hz ; subst hz ; rfl)
    | exact Option.noConfusion hz

/-- Helper: updateEdge only changes the edge list. -/
theorem updateEdge_fields (d : VoronoiDiagram) (a b v : Coordinate) (d2 : VoronoiDiagram)
    (h : d.updateEdge a b v = some d2) :
    d2.activeSites = d.activeSites ∧ d2.arcs = d.arcs := by
  rw [VoronoiDiagram.updateEdge] at h
  rcases hx : d.edges.findIdx? (fun e => decide (edgeMatches a b e)) with _ | i <;>
    rw [hx] at h
  · exact Option.noConfusion h
  · injection h with h
    subst h
    exact ⟨rfl, rfl⟩

/-- Helper: membership in the beachline after one active site's arc list is
replaced, when the removed arc is owned only by that site. -/
theorem onBeachline_setArcs (d : VoronoiDiagram) (owner : Nat) (newArcs : List Nat)
    (howner : owner < d.activeSites.length) (removed : Nat)
    (hrm : removed ∉ newArcs)
    (hown : ∀ j, (hj : j < d.activeSites.length) →
      removed ∈ (d.activeSites.get ⟨j, hj⟩).arcs → j = owner)
    (t : Nat) (ht : onBeachline (d.setActiveSiteArcs owner newArcs) t) :
    (t ∈ newArcs ∨ onBeachline d t) ∧ t ≠ removed := by
  rcases ht with ⟨s, hs, hm⟩
  simp only [VoronoiDiagram.setActiveSiteArcs] at hs
  rcases List.mem_iff_get?.mp hs with ⟨j, hgj⟩
  rw [List.get?_eq_getElem?, List.getElem?_set] at hgj
  by_cases hoj : owner = j
  · rw [if_pos hoj, if_pos howner] at hgj
    injection hgj with hgj
    rw [← hgj] at hm
    dsimp only at hm
    exact ⟨Or.inl hm, fun hh => hrm (hh ▸ hm)⟩
  · rw [if_neg hoj] at hgj
    have hjlen : j < d.activeSites.length := by
      by_contra hc
      rw [List.getElem?_eq_none (le_of_not_lt hc)] at hgj
      exact Option.noConfusion hgj
    refine ⟨Or.inr ⟨s, List.getElem?_mem hgj, hm⟩, fun hh => ?_⟩
    apply hoj
    have hsget : d.activeSites.get ⟨j, hjlen⟩ = s := by
      rw [List.get_eq_getElem]
      rw [List.getElem?_eq_getElem hjlen] at hgj
      exact Option.some.inj hgj
    exact (hown j hjlen (by rw [hsget]; exact hh ▸ hm)).symm

/-- C8 helper: processVertexEvent preserves link symmetry of the beachline,
given the invariants that hold when it is invoked: the event triple is three
adjacent distinct beachline arcs and the middle arc is owned only by its
recorded active site. -/
theorem linkSym_processVertexEvent (d d2 : VoronoiDiagram) (ve : VertexEvent)
    (a0 a1 a2 : Nat) (hve : ve.arcs = (a0, a1, a2))
    (hsym : LinkSymmetric d) (hrange : ArcsInRange d)
    (hBL0 : onBeachline d a0) (hBL1 : onBeachline d a1) (hBL2 : onBeachline d a2)
    (hadj0 : (d.getArc a0).rightArc = some a1) (hadj1 : (d.getArc a1).rightArc = some a2)
    (h01 : a0 ≠ a1) (h12 : a1 ≠ a2) (h02 : a0 ≠ a2)
    (hown : ownedOnlyBy d a1)
    (h : d.processVertexEvent ve = some d2) : LinkSymmetric d2 := by
  rw [VoronoiDiagram.processVertexEvent, hve] at h
  dsimp only at h
  split at h
  · exact Option.noConfusion h
  next d6 hx =>
  rcases updateEdge_fields _ _ _ _ _ h with ⟨h1, h2⟩
  rcases updateEdge_fields _ _ _ _ _ hx with ⟨h3, h4⟩
  have hlen0 : a0 < d.arcs.length := hrange.1 a0 hBL0
  have hlen2 : a2 < d.arcs.length := hrange.1 a2 hBL2
  have hL1 : (d.getArc a1).leftArc = some a0 := (hsym a0 hBL0).1 a1 hadj0
  have hL2 : (d.getArc a2).leftArc = some a1 := (hsym a1 hBL1).1 a2 hadj1
  have ha : d2.activeSites = d.activeSites.set (d.getArc a1).activeSite
      { d.activeSites.getD (d.getArc a1).activeSite default with arcs := (d.activeSites.getD (d.getArc a1).activeSite default).arcs.filter (fun a => decide (a ≠ a1)) } := by
    rw [h1, h3]
    rfl
  have harcs : d2.arcs =
      (((d.setActiveSiteArcs (d.getArc a1).activeSite
          ((d.activeSites.getD (d.getArc a1).activeSite default).arcs.filter
            (fun a => decide (a ≠ a1)))).setArc a0
          (fun a => { a with rightArc := some a2 })).setArc a2
          (fun a => { a with leftArc := some a0 })).arcs := by
    rw [h2, h4]
    rfl
  have hga : ∀ t, d2.getArc t =
      if t = a2 then { d.getArc a2 with leftArc := some a0 }
      else if t = a0 then { d.getArc a0 with rightArc := some a2 }
      else d.getArc t := by
    intro t
    have hstep : d2.getArc t =
        ((((d.setActiveSiteArcs (d.getArc a1).activeSite
            ((d.activeSites.getD (d.getArc a1).activeSite default).arcs.filter
              (fun a => decide (a ≠ a1)))).setArc a0
            (fun a => { a with rightArc := some a2 })).setArc a2
            (fun a => { a with leftArc := some a0 }))).getArc t := by
      simp only [VoronoiDiagram.getArc, harcs]
    rw [hstep]
    by_cases ht2 : t = a2
    · subst ht2
      rw [getArc_set_eq _ _ _ (by simpa [VoronoiDiagram.setArc, VoronoiDiagram.setActiveSiteArcs] using hlen2)]
      rw [getArc_set_ne _ _ _ _ h02.symm]
      rw [if_pos rfl]
      rfl
    · rw [getArc_set_ne _ _ _ _ ht2, if_neg ht2]
      by_cases ht0 : t = a0
      · subst ht0
        rw [getArc_set_eq _ _ _ (by simpa [VoronoiDiagram.setActiveSiteArcs] using hlen0)]
        rw [if_pos rfl]
        rfl
      · rw [getArc_set_ne _ _ _ _ ht0, if_neg ht0]
        rfl
  intro t hBLt
  have hBLd2 : onBeachline (d.setActiveSiteArcs (d.getArc a1).activeSite
      ((d.activeSites.getD (d.getArc a1).activeSite default).arcs.filter
        (fun a => decide (a ≠ a1)))) t := by
    rcases hBLt with ⟨s, hs, hm⟩
    rw [ha] at hs
    exact ⟨s, hs, hm⟩
  have hkey := onBeachline_setArcs d (d.getArc a1).activeSite _ hown.1 a1
    (by simp) hown.2 t hBLd2
  have hta1 : t ≠ a1 := hkey.2
  have hBLd : onBeachline d t := by
    rcases hkey.1 with hmem | hbl
    · rcases List.mem_filter.mp hmem with ⟨hmem1, _⟩
      refine ⟨d.activeSites.getD (d.getArc a1).activeSite default, ?_, hmem1⟩
      rw [List.getD_eq_getElem d.activeSites default hown.1]
      exact List.getElem_mem hown.1
    · exact hbl
  constructor
  · intro r hr
    rw [hga t] at hr
    rw [hga r]
    by_cases ht2 : t = a2
    · subst t
      rw [if_pos rfl] at hr
      dsimp only at hr
      have hold := (hsym a2 hBL2).1 r hr
      by_cases hr2 : r = a2
      · subst r
        exact absurd (Option.some.inj (hL2.symm.trans hold)) h12
      · rw [if_neg hr2]
        by_cases hr0 : r = a0
        · subst r
          rw [if_pos rfl]
          dsimp only
          exact hold
        · rw [if_neg hr0]
          exact hold
    · rw [if_neg ht2] at hr
      by_cases ht0 : t = a0
      · subst t
        rw [if_pos rfl] at hr
        dsimp only at hr
        have hr2 : r = a2 := (Option.some.inj hr).symm
        subst r
        rw [if_pos rfl]
      · rw [if_neg ht0] at hr
        have hold := (hsym t hBLd).1 r hr
        by_cases hr2 : r = a2
        · subst r
          exact absurd (Option.some.inj (hL2.symm.trans hold)).symm hta1
        · rw [if_neg hr2]
          by_cases hr0 : r = a0
          · subst r
            rw [if_pos rfl]
            dsimp only
            exact hold
          · rw [if_neg hr0]
            exact hold
  · intro l hl
    rw [hga t] at hl
    rw [hga l]
    by_cases ht2 : t = a2
    · subst t
      rw [if_pos rfl] at hl
      dsimp only at hl
      have hl0 : l = a0 := (Option.some.inj hl).symm
      subst l
      rw [if_neg h02, if_pos rfl]
    · rw [if_neg ht2] at hl
      by_cases ht0 : t = a0
      · subst t
        rw [if_pos rfl] at hl
        dsimp only at hl
        have hold := (hsym a0 hBL0).2 l hl
        by_cases hl2 : l = a2
        · subst l
          rw [if_pos rfl]
          dsimp only
          exact hold
        · rw [if_neg hl2]
          by_cases hl0 : l = a0
          · subst l
            exact absurd (Option.some.inj (hadj0.symm.trans hold)) h01.symm
          · rw [if_neg hl0]
            exact hold
      · rw [if_neg ht0] at hl
        have hold := (hsym t hBLd).2 l hl
        by_cases hl2 : l = a2
        · subst l
          rw [if_pos rfl]
          dsimp only
          exact hold
        · rw [if_neg hl2]
          by_cases hl0 : l = a0
          · subst l
            exact absurd (Option.some.inj (hadj0.symm.trans hold)).symm hta1
          · rw [if_neg hl0]
            exact hold

/-- Helper: slots outside the two appended cells are unchanged. -/
theorem getArc_append_two_other (d : VoronoiDiagram) (x y : ParabolaArc) (t : Nat)
    (h1 : t ≠ d.arcs.length) (h2 : t ≠ d.arcs.length + 1) :
    ({ d with arcs := d.arcs ++ [x, y] } : VoronoiDiagram).getArc t = d.getArc t := by
  rcases lt_or_ge t d.arcs.length with h | h
  · exact getArc_append_old d [x, y] t h
  · simp only [VoronoiDiagram.getArc, List.getD_eq_getElem?_getD]
    rw [List.getElem?_eq_none (by simp; omega), List.getElem?_eq_none (by omega)]

/-- Helper: the right links after appending two arena cells. -/
theorem getArc_append2_rightArc (d : VoronoiDiagram) (x y : ParabolaArc) (t : Nat) :
    (({ d with arcs := d.arcs ++ [x, y] } : VoronoiDiagram).getArc t).rightArc =
      if t = d.arcs.length then x.rightArc
      else if t = d.arcs.length + 1 then y.rightArc
      else (d.getArc t).rightArc := by
  by_cases h1 : t = d.arcs.length
  · subst t
    rw [if_pos rfl, getArc_append_two_fst]
  · rw [if_neg h1]
    by_cases h2 : t = d.arcs.length + 1
    · subst t
      rw [if_pos rfl, getArc_append_two_snd]
    · rw [if_neg h2, getArc_append_two_other _ _ _ _ h1 h2]

/-- Helper: the left links after appending two arena cells. -/
theorem getArc_append2_leftArc (d : VoronoiDiagram) (x y : ParabolaArc) (t : Nat) :
    (({ d with arcs := d.arcs ++ [x, y] } : VoronoiDiagram).getArc t).leftArc =
      if t = d.arcs.length then x.leftArc
      else if t = d.arcs.length + 1 then y.leftArc
      else (d.getArc t).leftArc := by
  by_cases h1 : t = d.arcs.length
  · subst t
    rw [if_pos rfl, getArc_append_two_fst]
  · rw [if_neg h1]
    by_cases h2 : t = d.arcs.length + 1
    · subst t
      rw [if_pos rfl, getArc_append_two_snd]
    · rw [if_neg h2, getArc_append_two_other _ _ _ _ h1 h2]

/-- Helper: writing an arc's left link leaves every right link unchanged. -/
theorem getArc_setArc_left_rightArc (d : VoronoiDiagram) (i : Nat) (v : Option Nat)
    (hi : i < d.arcs.length) (t : Nat) :
    ((d.setArc i (fun a => { a with leftArc := v })).getArc t).rightArc =
      (d.getArc t).rightArc := by
  by_cases ht : t = i
  · subst t
    rw [getArc_set_eq _ _ _ hi]
  · rw [getArc_set_ne _ _ _ _ ht]

/-- Helper: writing an arc's right link leaves every left link unchanged. -/
theorem getArc_setArc_right_leftArc (d : VoronoiDiagram) (i : Nat) (v : Option Nat)
    (hi : i < d.arcs.length) (t : Nat) :
    ((d.setArc i (fun a => { a with rightArc := v })).getArc t).leftArc =
      (d.getArc t).leftArc := by
  by_cases ht : t = i
  · subst t
    rw [getArc_set_eq _ _ _ hi]
  · rw [getArc_set_ne _ _ _ _ ht]

/-- Helper: the right links after writing one arc's right link. -/
theorem getArc_setArc_right_rightArc (d : VoronoiDiagram) (i : Nat) (v : Option Nat)
    (hi : i < d.arcs.length) (t : Nat) :
    ((d.setArc i (fun a => { a with rightArc := v })).getArc t).rightArc =
      if t = i then v else (d.getArc t).rightArc := by
  by_cases ht : t = i
  · subst t
    rw [if_pos rfl, getArc_set_eq _ _ _ hi]
  · rw [if_neg ht, getArc_set_ne _ _ _ _ ht]

/-- Helper: the left links after writing one arc's left link. -/
theorem getArc_setArc_left_leftArc (d : VoronoiDiagram) (i : Nat) (v : Option Nat)
    (hi : i < d.arcs.length) (t : Nat) :
    ((d.setArc i (fun a => { a with leftArc := v })).getArc t).leftArc =
      if t = i then v else (d.getArc t).leftArc := by
  by_cases ht : t = i
  · subst t
    rw [if_pos rfl, getArc_set_eq _ _ _ hi]
  · rw [if_neg ht, getArc_set_ne _ _ _ _ ht]

/-- Helper: the right links after writing both links of one arc. -/
theorem getArc_setArc_both_rightArc (d : VoronoiDiagram) (i : Nat) (vl vr : Option Nat)
    (hi : i < d.arcs.length) (t : Nat) :
    ((d.setArc i (fun a => { a with leftArc := vl, rightArc := vr })).getArc t).rightArc =
      if t = i then vr else (d.getArc t).rightArc := by
  by_cases ht : t = i
  · subst t
    rw [if_pos rfl, getArc_set_eq _ _ _ hi]
  · rw [if_neg ht, getArc_set_ne _ _ _ _ ht]

/-- Helper: the left links after writing both links of one arc. -/
theorem getArc_setArc_both_leftArc (d : VoronoiDiagram) (i : Nat) (vl vr : Option Nat)
    (hi : i < d.arcs.length) (t : Nat) :
    ((d.setArc i (fun a => { a with leftArc := vl, rightArc := vr })).getArc t).leftArc =
      if t = i then vl else (d.getArc t).leftArc := by
  by_cases ht : t = i
  · subst t
    rw [if_pos rfl, getArc_set_eq _ _ _ hi]
  · rw [if_neg ht, getArc_set_ne _ _ _ _ ht]

/-- Helper: beachline membership after updateBeachLine rewrites the owner
arc list: survivors are the two copies or old arcs other than the
intersected one. -/
theorem onBeachline_updateBL (d d2 : VoronoiDiagram) (iid : Nat)
    (hown : ownedOnlyBy d iid) (hiid_lt : iid < d.arcs.length)
    (hactive : d2.activeSites = d.activeSites.set (d.getArc iid).activeSite
      { d.activeSites.getD (d.getArc iid).activeSite default with arcs := (d.activeSites.getD (d.getArc iid).activeSite default).arcs.filter (fun a => decide (a ≠ iid)) ++ [d.arcs.length, d.arcs.length + 1] })
    (t : Nat) (ht : onBeachline d2 t) :
    t ≠ iid ∧ (t = d.arcs.length ∨ t = d.arcs.length + 1 ∨ onBeachline d t) := by
  have ht2 : onBeachline (d.setActiveSiteArcs (d.getArc iid).activeSite
      ((d.activeSites.getD (d.getArc iid).activeSite default).arcs.filter
        (fun a => decide (a ≠ iid)) ++ [d.arcs.length, d.arcs.length + 1])) t := by
    rcases ht with ⟨s, hs, hm⟩
    rw [hactive] at hs
    exact ⟨s, hs, hm⟩
  have hkey := onBeachline_setArcs d (d.getArc iid).activeSite _ hown.1 iid
    (by intro hmem; simp [List.mem_filter] at hmem; omega) hown.2 t ht2
  refine ⟨hkey.2, ?_⟩
  rcases hkey.1 with hmem | hbl
  · rcases List.mem_append.mp hmem with hf | hlr
    · rcases List.mem_filter.mp hf with ⟨hmem1, _⟩
      refine Or.inr (Or.inr ⟨d.activeSites.getD (d.getArc iid).activeSite default, ?_, hmem1⟩)
      rw [List.getD_eq_getElem d.activeSites default hown.1]
      exact List.getElem_mem hown.1
    · simp only [List.mem_cons, List.not_mem_nil, or_false] at hlr
      rcases hlr with h | h
      · exact Or.inl h
      · exact Or.inr (Or.inl h)
  · exact Or.inr (Or.inr hbl)

/-- C8 helper: a state whose links are those of a beachline split — the two
copies placed around the new arc, the outer neighbours relinked to the
copies, everything else unchanged, and the old intersected arc removed from
the beachline — is link-symmetric whenever the original state was. -/
theorem linkSym_relinked (d d2 : VoronoiDiagram) (iid nid : Nat)
    (hsym : LinkSymmetric d) (hrange : ArcsInRange d)
    (hBLi : onBeachline d iid)
    (hfreshL : ∀ t, (d.getArc t).leftArc ≠ some nid)
    (hfreshR : ∀ t, (d.getArc t).rightArc ≠ some nid)
    (hnid : nid < d.arcs.length)
    (hR2 : ∀ t, (d2.getArc t).rightArc =
      if some t = (d.getArc iid).leftArc then some d.arcs.length
      else if t = nid then some (d.arcs.length + 1)
      else if t = d.arcs.length then some nid
      else if t = d.arcs.length + 1 then (d.getArc iid).rightArc
      else (d.getArc t).rightArc)
    (hL2 : ∀ t, (d2.getArc t).leftArc =
      if some t = (d.getArc iid).rightArc then some (d.arcs.length + 1)
      else if t = nid then some d.arcs.length
      else if t = d.arcs.length then (d.getArc iid).leftArc
      else if t = d.arcs.length + 1 then some nid
      else (d.getArc t).leftArc)
    (hBL2 : ∀ t, onBeachline d2 t →
      t ≠ iid ∧ (t = d.arcs.length ∨ t = d.arcs.length + 1 ∨ onBeachline d t)) :
    LinkSymmetric d2 := by
  have hILlt : ∀ z, (d.getArc iid).leftArc = some z → z < d.arcs.length :=
    fun z hz => hrange.2.1 iid z hz
  have hIRlt : ∀ z, (d.getArc iid).rightArc = some z → z < d.arcs.length :=
    fun z hz => hrange.2.2 iid z hz
  have hsymIL : ∀ z, (d.getArc iid).leftArc = some z → (d.getArc z).rightArc = some iid :=
    (hsym iid hBLi).2
  have hsymIR : ∀ z, (d.getArc iid).rightArc = some z → (d.getArc z).leftArc = some iid :=
    (hsym iid hBLi).1
  have hlen_ne_nid : d.arcs.length ≠ nid := by omega
  have hlen1_ne_nid : d.arcs.length + 1 ≠ nid := by omega
  intro t hBLt
  rcases hBL2 t hBLt with ⟨htiid, hBLcase⟩
  constructor
  · intro u hu
    rw [hR2 t] at hu
    rw [hL2 u]
    by_cases c1 : some t = (d.getArc iid).leftArc
    · rw [if_pos c1] at hu
      have hu2 : u = d.arcs.length := (Option.some.inj hu).symm
      subst u
      rw [if_neg (by intro hh; have := hIRlt _ hh.symm; omega),
        if_neg hlen_ne_nid, if_pos rfl]
      exact c1.symm
    · rw [if_neg c1] at hu
      by_cases c2 : t = nid
      · rw [if_pos c2] at hu
        have hu2 : u = d.arcs.length + 1 := (Option.some.inj hu).symm
        subst u
        rw [if_neg (by intro hh; have := hIRlt _ hh.symm; omega),
          if_neg hlen1_ne_nid, if_neg (by omega), if_pos rfl]
        exact congrArg some c2.symm
      · rw [if_neg c2] at hu
        by_cases c3 : t = d.arcs.length
        · rw [if_pos c3] at hu
          have hu2 : u = nid := (Option.some.inj hu).symm
          subst u
          rw [if_neg (fun hh => hfreshR iid hh.symm), if_pos rfl]
          exact congrArg some c3.symm
        · rw [if_neg c3] at hu
          by_cases c4 : t = d.arcs.length + 1
          · rw [if_pos c4] at hu
            rw [if_pos hu.symm]
            exact congrArg some c4.symm
          · rw [if_neg c4] at hu
            have hBLd : onBeachline d t := by
              rcases hBLcase with h | h | h
              · exact absurd h c3
              · exact absurd h c4
              · exact h
            have hold := (hsym t hBLd).1 u hu
            by_cases e1 : some u = (d.getArc iid).rightArc
            · have hiidl := hsymIR u e1.symm
              rw [hold] at hiidl
              exact absurd (Option.some.inj hiidl) htiid
            · rw [if_neg e1]
              by_cases e2 : u = nid
              · exact absurd (e2 ▸ hu) (hfreshR t)
              · rw [if_neg e2]
                by_cases e3 : u = d.arcs.length
                · exact absurd (hrange.2.2 t u hu) (by omega)
                · rw [if_neg e3]
                  by_cases e4 : u = d.arcs.length + 1
                  · exact absurd (hrange.2.2 t u hu) (by omega)
                  · rw [if_neg e4]
                    exact hold
  · intro u hu
    rw [hL2 t] at hu
    rw [hR2 u]
    by_cases c1 : some t = (d.getArc iid).rightArc
    · rw [if_pos c1] at hu
      have hu2 : u = d.arcs.length + 1 := (Option.some.inj hu).symm
      subst u
      rw [if_neg (by intro hh; have := hILlt _ hh.symm; omega),
        if_neg hlen1_ne_nid, if_neg (by omega), if_pos rfl]
      exact c1.symm
    · rw [if_neg c1] at hu
      by_cases c2 : t = nid
      · rw [if_pos c2] at hu
        have hu2 : u = d.arcs.length := (Option.some.inj hu).symm
        subst u
        rw [if_neg (by intro hh; have := hILlt _ hh.symm; omega),
          if_neg hlen_ne_nid, if_pos rfl]
        exact congrArg some c2.symm
      · rw [if_neg c2] at hu
        by_cases c3 : t = d.arcs.length
        · rw [if_pos c3] at hu
          rw [if_pos hu.symm]
          exact congrArg some c3.symm
        · rw [if_neg c3] at hu
          by_cases c4 : t = d.arcs.length + 1
          · rw [if_pos c4] at hu
            have hu2 : u = nid := (Option.some.inj hu).symm
            subst u
            rw [if_neg (fun hh => hfreshL iid hh.symm), if_pos rfl]
            exact congrArg some c4.symm
          · rw [if_neg c4] at hu
            have hBLd : onBeachline d t := by
              rcases hBLcase with h | h | h
              · exact absurd h c3
              · exact absurd h c4
              · exact h
            have hold := (hsym t hBLd).2 u hu
            by_cases e1 : some u = (d.getArc iid).leftArc
            · have hiidr := hsymIL u e1.symm
              rw [hold] at hiidr
              exact absurd (Option.some.inj hiidr) htiid
            · rw [if_neg e1]
              by_cases e2 : u = nid
              · exact absurd (e2 ▸ hu) (hfreshL t)
              · rw [if_neg e2]
                by_cases e3 : u = d.arcs.length
                · exact absurd (hrange.2.1 t u hu) (by omega)
                · rw [if_neg e3]
                  by_cases e4 : u = d.arcs.length + 1
                  · exact absurd (hrange.2.1 t u hu) (by omega)
                  · rw [if_neg e4]
                    exact hold

/-- C8 helper: a site event's beachline split preserves link symmetry, given
the invariants holding when updateBeachLine is invoked: the intersected arc
is a beachline arc owned only by its recorded site, and the new arc is a
fresh in-range cell no link points to. -/
theorem linkSym_updateBeachLine (d d2 : VoronoiDiagram) (nid iid : Nat)
    (hsym : LinkSymmetric d) (hrange : ArcsInRange d)
    (hBLi : onBeachline d iid)
    (hfreshL : ∀ t, (d.getArc t).leftArc ≠ some nid)
    (hfreshR : ∀ t, (d.getArc t).rightArc ≠ some nid)
    (hnid : nid < d.arcs.length)
    (hown : ownedOnlyBy d iid)
    (h : d.updateBeachLine nid iid = some d2) : LinkSymmetric d2 := by
  have hiid_lt : iid < d.arcs.length := hrange.1 iid hBLi
  rw [VoronoiDiagram.updateBeachLine] at h
  rcases hLo : (d.getArc iid).leftArc with _ | l <;> rw [hLo] at h <;> dsimp only at h <;>
    rcases hRo : (d.getArc iid).rightArc with _ | r <;> rw [hRo] at h <;> dsimp only at h
  · set c0 : VoronoiDiagram := { d with arcs := d.arcs ++
      ([⟨(d.getArc iid).activeSite, none, some nid⟩,
        ⟨(d.getArc iid).activeSite, some nid, none⟩] : List ParabolaArc) } with hc0
    set c1 : VoronoiDiagram := c0.setArc nid
      (fun a => { a with leftArc := some d.arcs.length, rightArc := some (d.arcs.length + 1) }) with hc1
    have hfld := updateVertexEvents_fields _ _ _ h
    have harc : d2.arcs = c1.arcs := by
      rw [hfld.2]
      rfl
    have hactive : d2.activeSites = d.activeSites.set (d.getArc iid).activeSite
        { d.activeSites.getD (d.getArc iid).activeSite default with arcs := (d.activeSites.getD (d.getArc iid).activeSite default).arcs.filter (fun a => decide (a ≠ iid)) ++ [d.arcs.length, d.arcs.length + 1] } := by
      rw [hfld.1]
      rfl
    have hga : ∀ t, d2.getArc t = c1.getArc t := by
      intro t
      simp only [VoronoiDiagram.getArc, harc]
    have hlen0 : c0.arcs.length = d.arcs.length + 2 := by
      rw [hc0]
      simp
    have hR2 : ∀ t, (d2.getArc t).rightArc =
        if some t = (d.getArc iid).leftArc then some d.arcs.length
        else if t = nid then some (d.arcs.length + 1)
        else if t = d.arcs.length then some nid
        else if t = d.arcs.length + 1 then (d.getArc iid).rightArc
        else (d.getArc t).rightArc := by
      intro t
      rw [hga, hc1, getArc_setArc_both_rightArc _ _ _ _ (by rw [hlen0]; omega), hc0,
        getArc_append2_rightArc, hLo, hRo, if_neg (Option.some_ne_none t)]
    have hL2 : ∀ t, (d2.getArc t).leftArc =
        if some t = (d.getArc iid).rightArc then some (d.arcs.length + 1)
        else if t = nid then some d.arcs.length
        else if t = d.arcs.length then (d.getArc iid).leftArc
        else if t = d.arcs.length + 1 then some nid
        else (d.getArc t).leftArc := by
      intro t
      rw [hga, hc1, getArc_setArc_both_leftArc _ _ _ _ (by rw [hlen0]; omega), hc0,
        getArc_append2_leftArc, hLo, hRo, if_neg (Option.some_ne_none t)]
    exact linkSym_relinked d d2 iid nid hsym hrange hBLi hfreshL hfreshR hnid hR2 hL2
      (fun t ht => onBeachline_updateBL d d2 iid hown hiid_lt hactive t ht)
  · have hr_lt : r < d.arcs.length := hrange.2.2 iid r hRo
    set c0 : VoronoiDiagram := { d with arcs := d.arcs ++
      ([⟨(d.getArc iid).activeSite, none, some nid⟩,
        ⟨(d.getArc iid).activeSite, some nid, some r⟩] : List ParabolaArc) } with hc0
    set c1 : VoronoiDiagram := c0.setArc nid
      (fun a => { a with leftArc := some d.arcs.length, rightArc := some (d.arcs.length + 1) }) with hc1
    set c2 : VoronoiDiagram := c1.setArc r
      (fun a => { a with leftArc := some (d.arcs.length + 1) }) with hc2
    have hfld := updateVertexEvents_fields _ _ _ h
    have harc : d2.arcs = c2.arcs := by
      rw [hfld.2]
      rfl
    have hactive : d2.activeSites = d.activeSites.set (d.getArc iid).activeSite
        { d.activeSites.getD (d.getArc iid).activeSite default with arcs := (d.activeSites.getD (d.getArc iid).activeSite default).arcs.filter (fun a => decide (a ≠ iid)) ++ [d.arcs.length, d.arcs.length + 1] } := by
      rw [hfld.1]
      rfl
    have hga : ∀ t, d2.getArc t = c2.getArc t := by
      intro t
      simp only [VoronoiDiagram.getArc, harc]
    have hlen0 : c0.arcs.length = d.arcs.length + 2 := by
      rw [hc0]
      simp
    have hlen1 : c1.arcs.length = d.arcs.length + 2 := by
      rw [hc1, VoronoiDiagram.setArc]
      simp [hlen0]
    have hR2 : ∀ t, (d2.getArc t).rightArc =
        if some t = (d.getArc iid).leftArc then some d.arcs.length
        else if t = nid then some (d.arcs.length + 1)
        else if t = d.arcs.length then some nid
        else if t = d.arcs.length + 1 then (d.getArc iid).rightArc
        else (d.getArc t).rightArc := by
      intro t
      rw [hga, hc2, getArc_setArc_left_rightArc _ _ _ (by rw [hlen1]; omega), hc1,
        getArc_setArc_both_rightArc _ _ _ _ (by rw [hlen0]; omega), hc0,
        getArc_append2_rightArc, hLo, hRo, if_neg (Option.some_ne_none t)]
    have hL2 : ∀ t, (d2.getArc t).leftArc =
        if some t = (d.getArc iid).rightArc then some (d.arcs.length + 1)
        else if t = nid then some d.arcs.length
        else if t = d.arcs.length then (d.getArc iid).leftArc
        else if t = d.arcs.length + 1 then some nid
        else (d.getArc t).leftArc := by
      intro t
      rw [hga, hc2, getArc_setArc_left_leftArc _ _ _ (by rw [hlen1]; omega), hc1,
        getArc_setArc_both_leftArc _ _ _ _ (by rw [hlen0]; omega), hc0,
        getArc_append2_leftArc, hLo, hRo]
      simp only [Option.some.injEq]
    exact linkSym_relinked d d2 iid nid hsym hrange hBLi hfreshL hfreshR hnid hR2 hL2
      (fun t ht => onBeachline_updateBL d d2 iid hown hiid_lt hactive t ht)
  · have hl_lt : l < d.arcs.length := hrange.2.1 iid l hLo
    set c0 : VoronoiDiagram := { d with arcs := d.arcs ++
      ([⟨(d.getArc iid).activeSite, some l, some nid⟩,
        ⟨(d.getArc iid).activeSite, some nid, none⟩] : List ParabolaArc) } with hc0
    set c1 : VoronoiDiagram := c0.setArc nid
      (fun a => { a with leftArc := some d.arcs.length, rightArc := some (d.arcs.length + 1) }) with hc1
    set c2 : VoronoiDiagram := c1.setArc l
      (fun a => { a with rightArc := some d.arcs.length }) with hc2
    have hfld := updateVertexEvents_fields _ _ _ h
    have harc : d2.arcs = c2.arcs := by
      rw [hfld.2]
      rfl
    have hactive : d2.activeSites = d.activeSites.set (d.getArc iid).activeSite
        { d.activeSites.getD (d.getArc iid).activeSite default with arcs := (d.activeSites.getD (d.getArc iid).activeSite default).arcs.filter (fun a => decide (a ≠ iid)) ++ [d.arcs.length, d.arcs.length + 1] } := by
      rw [hfld.1]
      rfl
    have hga : ∀ t, d2.getArc t = c2.getArc t := by
      intro t
      simp only [VoronoiDiagram.getArc, harc]
    have hlen0 : c0.arcs.length = d.arcs.length + 2 := by
      rw [hc0]
      simp
    have hlen1 : c1.arcs.length = d.arcs.length + 2 := by
      rw [hc1, VoronoiDiagram.setArc]
      simp [hlen0]
    have hR2 : ∀ t, (d2.getArc t).rightArc =
        if some t = (d.getArc iid).leftArc then some d.arcs.length
        else if t = nid then some (d.arcs.length + 1)
        else if t = d.arcs.length then some nid
        else if t = d.arcs.length + 1 then (d.getArc iid).rightArc
        else (d.getArc t).rightArc := by
      intro t
      rw [hga, hc2, getArc_setArc_right_rightArc _ _ _ (by rw [hlen1]; omega), hc1,
        getArc_setArc_both_rightArc _ _ _ _ (by rw [hlen0]; omega), hc0,
        getArc_append2_rightArc, hLo, hRo]
      simp only [Option.some.injEq]
    have hL2 : ∀ t, (d2.getArc t).leftArc =
        if some t = (d.getArc iid).rightArc then some (d.arcs.length + 1)
        else if t = nid then some d.arcs.length
        else if t = d.arcs.length then (d.getArc iid).leftArc
        else if t = d.arcs.length + 1 then some nid
        else (d.getArc t).leftArc := by
      intro t
      rw [hga, hc2, getArc_setArc_right_leftArc _ _ _ (by rw [hlen1]; omega), hc1,
        getArc_setArc_both_leftArc _ _ _ _ (by rw [hlen0]; omega), hc0,
        getArc_append2_leftArc, hLo, hRo, if_neg (Option.some_ne_none t)]
    exact linkSym_relinked d d2 iid nid hsym hrange hBLi hfreshL hfreshR hnid hR2 hL2
      (fun t ht => onBeachline_updateBL d d2 iid hown hiid_lt hactive t ht)
  · have hl_lt : l < d.arcs.length := hrange.2.1 iid l hLo
    have hr_lt : r < d.arcs.length := hrange.2.2 iid r hRo
    set c0 : VoronoiDiagram := { d with arcs := d.arcs ++
      ([⟨(d.getArc iid).activeSite, some l, some nid⟩,
        ⟨(d.getArc iid).activeSite, some nid, some r⟩] : List ParabolaArc) } with hc0
    set c1 : VoronoiDiagram := c0.setArc nid
      (fun a => { a with leftArc := some d.arcs.length, rightArc := some (d.arcs.length + 1) }) with hc1
    set c2 : VoronoiDiagram := c1.setArc l
      (fun a => { a with rightArc := some d.arcs.length }) with hc2
    set c3 : VoronoiDiagram := c2.setArc r
      (fun a => { a with leftArc := some (d.arcs.length + 1) }) with hc3
    have hfld := updateVertexEvents_fields _ _ _ h
    have harc : d2.arcs = c3.arcs := by
      rw [hfld.2]
      rfl
    have hactive : d2.activeSites = d.activeSites.set (d.getArc iid).activeSite
        { d.activeSites.getD (d.getArc iid).activeSite default with arcs := (d.activeSites.getD (d.getArc iid).activeSite default).arcs.filter (fun a => decide (a ≠ iid)) ++ [d.arcs.length, d.arcs.length + 1] } := by
      rw [hfld.1]
      rfl
    have hga : ∀ t, d2.getArc t = c3.getArc t := by
      intro t
      simp only [VoronoiDiagram.getArc, harc]
    have hlen0 : c0.arcs.length = d.arcs.length + 2 := by
      rw [hc0]
      simp
    have hlen1 : c1.arcs.length = d.arcs.length + 2 := by
      rw [hc1, VoronoiDiagram.setArc]
      simp [hlen0]
    have hlen2 : c2.arcs.length = d.arcs.length + 2 := by
      rw [hc2, VoronoiDiagram.setArc]
      simp [hlen1]
    have hR2 : ∀ t, (d2.getArc t).rightArc =
        if some t = (d.getArc iid).leftArc then some d.arcs.length
        else if t = nid then some (d.arcs.length + 1)
        else if t = d.arcs.length then some nid
        else if t = d.arcs.length + 1 then (d.getArc iid).rightArc
        else (d.getArc t).rightArc := by
      intro t
      rw [hga, hc3, getArc_setArc_left_rightArc _ _ _ (by rw [hlen2]; omega), hc2,
        getArc_setArc_right_rightArc _ _ _ (by rw [hlen1]; omega), hc1,
        getArc_setArc_both_rightArc _ _ _ _ (by rw [hlen0]; omega), hc0,
        getArc_append2_rightArc, hLo, hRo]
      simp only [Option.some.injEq]
    have hL2 : ∀ t, (d2.getArc t).leftArc =
        if some t = (d.getArc iid).rightArc then some (d.arcs.length + 1)
        else if t = nid then some d.arcs.length
        else if t = d.arcs.length then (d.getArc iid).leftArc
        else if t = d.arcs.length + 1 then some nid
        else (d.getArc t).leftArc := by
      intro t
      rw [hga, hc3, getArc_setArc_left_leftArc _ _ _ (by rw [hlen2]; omega), hc2,
        getArc_setArc_right_leftArc _ _ _ (by rw [hlen1]; omega), hc1,
        getArc_setArc_both_leftArc _ _ _ _ (by rw [hlen0]; omega), hc0,
        getArc_append2_leftArc, hLo, hRo]
      simp only [Option.some.injEq]
    exact linkSym_relinked d d2 iid nid hsym hrange hBLi hfreshL hfreshR hnid hR2 hL2
      (fun t ht => onBeachline_updateBL d d2 iid hown hiid_lt hactive t ht)

/-- C8: link symmetry (spec I1) is an invariant of the beachline: it is
established by the bootstrap insertFirstSites on an empty diagram, and it is
preserved by every site event (updateBeachLine) and every vertex event
(processVertexEvent) under the companion invariants holding when those
handlers run: beachline arcs and links lie in the arena, the split or
deleted arc is on the beachline and owned only by its recorded active site,
the vertex event's triple is three adjacent distinct beachline arcs, and
the new arc of a split is a fresh in-range cell no link points to. -/
theorem C8_link_symmetry_preserved :
    (∀ d d2 : VoronoiDiagram, d.activeSites = [] → d.arcs = [] →
      d.insertFirstSites = some d2 → LinkSymmetric d2) ∧
    (∀ d d2 : VoronoiDiagram, ∀ nid iid : Nat,
      LinkSymmetric d → ArcsInRange d → onBeachline d iid →
      (∀ t, (d.getArc t).leftArc ≠ some nid) →
      (∀ t, (d.getArc t).rightArc ≠ some nid) →
      nid < d.arcs.length → ownedOnlyBy d iid →
      d.updateBeachLine nid iid = some d2 → LinkSymmetric d2) ∧
    (∀ d d2 : VoronoiDiagram, ∀ ve : VertexEvent, ∀ a0 a1 a2 : Nat,
      ve.arcs = (a0, a1, a2) → LinkSymmetric d → ArcsInRange d →
      onBeachline d a0 → onBeachline d a1 → onBeachline d a2 →
      (d.getArc a0).rightArc = some a1 → (d.getArc a1).rightArc = some a2 →
      a0 ≠ a1 → a1 ≠ a2 → a0 ≠ a2 → ownedOnlyBy d a1 →
      d.processVertexEvent ve = some d2 → LinkSymmetric d2) :=
  ⟨linkSym_insertFirstSites,
   fun d d2 nid iid h1 h2 h3 h4 h5 h6 h7 h8 =>
     linkSym_updateBeachLine d d2 nid iid h1 h2 h3 h4 h5 h6 h7 h8,
   fun d d2 ve a0 a1 a2 hve h1 h2 h3 h4 h5 h6 h7 h8 h9 h10 h11 h12 =>
     linkSym_processVertexEvent d d2 ve a0 a1 a2 hve h1 h2 h3 h4 h5 h6 h7 h8 h9 h10 h11 h12⟩

/-- Witness for C8: the three preservation statements applied at concrete
states — the bootstrap on sites (0,0) and (2,0), a beachline split of a
one-arc site, and a vertex event deleting the middle of three adjacent
arcs. -/
theorem C8_link_symmetry_preserved_witness :
    LinkSymmetric ⟨[⟨⟨.fin 0, .fin 0⟩, [1, 2]⟩, ⟨⟨.fin 2, .fin 0⟩, [0]⟩],
      [⟨⟨.fin 0, .fin 0⟩, ⟨.fin 2, .fin 0⟩, none, none⟩],
      [⟨1, some 1, some 2⟩, ⟨0, none, some 0⟩, ⟨0, some 0, none⟩], .fin 0, ⟨[], []⟩⟩ ∧
    LinkSymmetric ⟨[⟨⟨.fin 0, .fin 0⟩, [2, 3]⟩, ⟨⟨.fin 3, .fin 3⟩, [1]⟩],
      [⟨⟨.fin 3, .fin 3⟩, ⟨.fin 0, .fin 0⟩, none, none⟩],
      [⟨0, none, none⟩, ⟨1, some 2, some 3⟩, ⟨0, none, some 1⟩, ⟨0, some 1, none⟩],
      .fin 0, ⟨[], []⟩⟩ ∧
    LinkSymmetric ⟨[⟨⟨.fin 0, .fin 0⟩, [0]⟩, ⟨⟨.fin 1, .fin 0⟩, []⟩, ⟨⟨.fin 0, .fin 1⟩, [2]⟩],
      [⟨⟨.fin 0, .fin 0⟩, ⟨.fin 1, .fin 0⟩, none, some ⟨.fin 2, .fin 0⟩⟩,
       ⟨⟨.fin 1, .fin 0⟩, ⟨.fin 0, .fin 1⟩, some ⟨.fin 2, .fin 0⟩, none⟩,
       ⟨⟨.fin 0, .fin 0⟩, ⟨.fin 0, .fin 1⟩, some ⟨.fin 2, .fin 0⟩, none⟩],
      [⟨0, none, some 2⟩, ⟨1, some 0, some 2⟩, ⟨2, some 0, none⟩], .fin 0, ⟨[], []⟩⟩ := by
  refine ⟨?_, ?_, ?_⟩
  · have hp1 : (⟨[⟨⟨.fin 2, .fin 0⟩⟩, ⟨⟨.fin 0, .fin 0⟩⟩], []⟩ : PriorityQueue).pop =
        (⟨true, some ⟨⟨.fin 0, .fin 0⟩⟩, none⟩, ⟨[⟨⟨.fin 2, .fin 0⟩⟩], []⟩) :=
      pop_vertexEmpty _ rfl
    have hp2 : (⟨[⟨⟨.fin 2, .fin 0⟩⟩], []⟩ : PriorityQueue).pop =
        (⟨true, some ⟨⟨.fin 2, .fin 0⟩⟩, none⟩, ⟨[], []⟩) := pop_vertexEmpty _ rfl
    have hifs : VoronoiDiagram.insertFirstSites
        ⟨[], [], [], .fin 0, ⟨[⟨⟨.fin 2, .fin 0⟩⟩, ⟨⟨.fin 0, .fin 0⟩⟩], []⟩⟩ =
        some ⟨[⟨⟨.fin 0, .fin 0⟩, [1, 2]⟩, ⟨⟨.fin 2, .fin 0⟩, [0]⟩],
          [⟨⟨.fin 0, .fin 0⟩, ⟨.fin 2, .fin 0⟩, none, none⟩],
          [⟨1, some 1, some 2⟩, ⟨0, none, some 0⟩, ⟨0, some 0, none⟩], .fin 0, ⟨[], []⟩⟩ := by
      rw [VoronoiDiagram.insertFirstSites]
      simp only [hp1, hp2]
      rfl
    exact C8_link_symmetry_preserved.1 _ _ rfl rfl hifs
  · have hsymB : LinkSymmetric ⟨[⟨⟨.fin 0, .fin 0⟩, [0]⟩, ⟨⟨.fin 3, .fin 3⟩, [1]⟩],
        [], [⟨0, none, none⟩, ⟨1, none, none⟩], .fin 0, ⟨[], []⟩⟩ := by
      intro arcId hBL
      refine ⟨fun z hz => ?_, fun z hz => ?_⟩ <;>
        rcases arcId with _ | _ | n <;> exact Option.noConfusion hz
    have hrangeB : ArcsInRange ⟨[⟨⟨.fin 0, .fin 0⟩, [0]⟩, ⟨⟨.fin 3, .fin 3⟩, [1]⟩],
        [], [⟨0, none, none⟩, ⟨1, none, none⟩], .fin 0, ⟨[], []⟩⟩ := by
      refine ⟨?_, ?_, ?_⟩
      · intro arcId hBL
        rcases hBL with ⟨s, hs, hm⟩
        simp only [List.mem_cons, List.not_mem_nil, or_false] at hs
        rcases hs with rfl | rfl <;> simp at hm <;> simp [hm]
      · intro arcId z hz
        rcases arcId with _ | _ | n <;> exact Option.noConfusion hz
      · intro arcId z hz
        rcases arcId with _ | _ | n <;> exact Option.noConfusion hz
    have hownB : ownedOnlyBy ⟨[⟨⟨.fin 0, .fin 0⟩, [0]⟩, ⟨⟨.fin 3, .fin 3⟩, [1]⟩],
        [], [⟨0, none, none⟩, ⟨1, none, none⟩], .fin 0, ⟨[], []⟩⟩ 0 := by
      refine ⟨by simp [VoronoiDiagram.getArc], ?_⟩
      intro j hj hm
      rcases j with _ | _ | j
      · rfl
      · simp at hm
      · exfalso
        simp only [List.length_cons, List.length_nil] at hj
        omega
    exact C8_link_symmetry_preserved.2.1 _ _ 1 0 hsymB hrangeB
      ⟨⟨⟨.fin 0, .fin 0⟩, [0]⟩, by simp, by simp⟩
      (fun t => by rcases t with _ | _ | n <;> exact fun hh => Option.noConfusion hh)
      (fun t => by rcases t with _ | _ | n <;> exact fun hh => Option.noConfusion hh)
      (by simp) hownB rfl
  · have hd1 : JSNum.lt (.fin 0) (distanceFromPlane ⟨.fin 0, .fin 0⟩ ⟨.fin 0, .fin 1⟩
        ⟨.fin 2, .fin 0⟩) := by
      norm_num [distanceFromPlane, getNormal, JSNum.sqrt, JSNum.div]
    have hd2 : ¬ JSNum.lt (.fin 0) (distanceFromPlane ⟨.fin 0, .fin 0⟩ ⟨.fin 1, .fin 0⟩
        ⟨.fin 2, .fin 0⟩) := by
      norm_num [distanceFromPlane, getNormal, JSNum.sqrt, JSNum.div]
    have hd3 : JSNum.lt (.fin 0) (distanceFromPlane ⟨.fin 1, .fin 0⟩ ⟨.fin 0, .fin 1⟩
        ⟨.fin 2, .fin 0⟩) := by
      have hs2 : (0:ℝ) < Real.sqrt 2 := by positivity
      norm_num [distanceFromPlane, getNormal, JSNum.sqrt, JSNum.div, hs2.ne']
    have hADD : addVertexToEdge ⟨⟨.fin 0, .fin 0⟩, ⟨.fin 0, .fin 1⟩, none, none⟩
        ⟨.fin 2, .fin 0⟩ = ⟨⟨.fin 0, .fin 0⟩, ⟨.fin 0, .fin 1⟩, some ⟨.fin 2, .fin 0⟩, none⟩ := by
      rw [addVertexToEdge]
      dsimp only
      rw [if_pos hd1]
    have hADD2 : addVertexToEdge ⟨⟨.fin 0, .fin 0⟩, ⟨.fin 1, .fin 0⟩, none, none⟩
        ⟨.fin 2, .fin 0⟩ = ⟨⟨.fin 0, .fin 0⟩, ⟨.fin 1, .fin 0⟩, none, some ⟨.fin 2, .fin 0⟩⟩ := by
      rw [addVertexToEdge]
      dsimp only
      rw [if_neg hd2]
    have hADD3 : addVertexToEdge ⟨⟨.fin 1, .fin 0⟩, ⟨.fin 0, .fin 1⟩, none, none⟩
        ⟨.fin 2, .fin 0⟩ = ⟨⟨.fin 1, .fin 0⟩, ⟨.fin 0, .fin 1⟩, some ⟨.fin 2, .fin 0⟩, none⟩ := by
      rw [addVertexToEdge]
      dsimp only
      rw [if_pos hd3]
    have hm1 : edgeMatches ⟨.fin 0, .fin 0⟩ ⟨.fin 1, .fin 0⟩
        (⟨⟨.fin 0, .fin 0⟩, ⟨.fin 1, .fin 0⟩, none, none⟩ : Edge) := Or.inl ⟨rfl, rfl⟩
    have hm2 : ¬ edgeMatches ⟨.fin 1, .fin 0⟩ ⟨.fin 0, .fin 1⟩
        (⟨⟨.fin 0, .fin 0⟩, ⟨.fin 1, .fin 0⟩, none, some ⟨.fin 2, .fin 0⟩⟩ : Edge) := by
      norm_num [edgeMatches]
    have hm3 : edgeMatches ⟨.fin 1, .fin 0⟩ ⟨.fin 0, .fin 1⟩
        (⟨⟨.fin 1, .fin 0⟩, ⟨.fin 0, .fin 1⟩, none, none⟩ : Edge) := Or.inl ⟨rfl, rfl⟩
    have hfind1 : ([⟨⟨.fin 0, .fin 0⟩, ⟨.fin 1, .fin 0⟩, none, none⟩,
        ⟨⟨.fin 1, .fin 0⟩, ⟨.fin 0, .fin 1⟩, none, none⟩,
        addVertexToEdge ⟨⟨.fin 0, .fin 0⟩, ⟨.fin 0, .fin 1⟩, none, none⟩ ⟨.fin 2, .fin 0⟩] :
        List Edge).findIdx?
        (fun e => decide (edgeMatches ⟨.fin 0, .fin 0⟩ ⟨.fin 1, .fin 0⟩ e)) = some 0 := by
      simp only [List.findIdx?_cons]
      rw [decide_eq_true hm1]
      simp
    have hfind2 : ([⟨⟨.fin 0, .fin 0⟩, ⟨.fin 1, .fin 0⟩, none, some ⟨.fin 2, .fin 0⟩⟩,
        ⟨⟨.fin 1, .fin 0⟩, ⟨.fin 0, .fin 1⟩, none, none⟩,
        addVertexToEdge ⟨⟨.fin 0, .fin 0⟩, ⟨.fin 0, .fin 1⟩, none, none⟩ ⟨.fin 2, .fin 0⟩] :
        List Edge).findIdx?
        (fun e => decide (edgeMatches ⟨.fin 1, .fin 0⟩ ⟨.fin 0, .fin 1⟩ e)) = some 1 := by
      simp only [List.findIdx?_cons, List.findIdx?_succ]
      rw [decide_eq_false hm2, decide_eq_true hm3]
      simp
    have hu1 : VoronoiDiagram.updateEdge
        ⟨[⟨⟨.fin 0, .fin 0⟩, [0]⟩, ⟨⟨.fin 1, .fin 0⟩, []⟩, ⟨⟨.fin 0, .fin 1⟩, [2]⟩],
          [⟨⟨.fin 0, .fin 0⟩, ⟨.fin 1, .fin 0⟩, none, none⟩,
           ⟨⟨.fin 1, .fin 0⟩, ⟨.fin 0, .fin 1⟩, none, none⟩,
           addVertexToEdge ⟨⟨.fin 0, .fin 0⟩, ⟨.fin 0, .fin 1⟩, none, none⟩ ⟨.fin 2, .fin 0⟩],
          [⟨0, none, some 2⟩, ⟨1, some 0, some 2⟩, ⟨2, some 0, none⟩], .fin 0, ⟨[], []⟩⟩
        ⟨.fin 0, .fin 0⟩ ⟨.fin 1, .fin 0⟩ ⟨.fin 2, .fin 0⟩ =
        some ⟨[⟨⟨.fin 0, .fin 0⟩, [0]⟩, ⟨⟨.fin 1, .fin 0⟩, []⟩, ⟨⟨.fin 0, .fin 1⟩, [2]⟩],
          [⟨⟨.fin 0, .fin 0⟩, ⟨.fin 1, .fin 0⟩, none, some ⟨.fin 2, .fin 0⟩⟩,
           ⟨⟨.fin 1, .fin 0⟩, ⟨.fin 0, .fin 1⟩, none, none⟩,
           addVertexToEdge ⟨⟨.fin 0, .fin 0⟩, ⟨.fin 0, .fin 1⟩, none, none⟩ ⟨.fin 2, .fin 0⟩],
          [⟨0, none, some 2⟩, ⟨1, some 0, some 2⟩, ⟨2, some 0, none⟩], .fin 0, ⟨[], []⟩⟩ := by
      rw [VoronoiDiagram.updateEdge]
      dsimp only
      rw [hfind1]
      dsimp only
      rw [List.getD_cons_zero, hADD2]
      rfl
    have hu2 : VoronoiDiagram.updateEdge
        ⟨[⟨⟨.fin 0, .fin 0⟩, [0]⟩, ⟨⟨.fin 1, .fin 0⟩, []⟩, ⟨⟨.fin 0, .fin 1⟩, [2]⟩],
          [⟨⟨.fin 0, .fin 0⟩, ⟨.fin 1, .fin 0⟩, none, some ⟨.fin 2, .fin 0⟩⟩,
           ⟨⟨.fin 1, .fin 0⟩, ⟨.fin 0, .fin 1⟩, none, none⟩,
           addVertexToEdge ⟨⟨.fin 0, .fin 0⟩, ⟨.fin 0, .fin 1⟩, none, none⟩ ⟨.fin 2, .fin 0⟩],
          [⟨0, none, some 2⟩, ⟨1, some 0, some 2⟩, ⟨2, some 0, none⟩], .fin 0, ⟨[], []⟩⟩
        ⟨.fin 1, .fin 0⟩ ⟨.fin 0, .fin 1⟩ ⟨.fin 2, .fin 0⟩ =
        some ⟨[⟨⟨.fin 0, .fin 0⟩, [0]⟩, ⟨⟨.fin 1, .fin 0⟩, []⟩, ⟨⟨.fin 0, .fin 1⟩, [2]⟩],
          [⟨⟨.fin 0, .fin 0⟩, ⟨.fin 1, .fin 0⟩, none, some ⟨.fin 2, .fin 0⟩⟩,
           ⟨⟨.fin 1, .fin 0⟩, ⟨.fin 0, .fin 1⟩, some ⟨.fin 2, .fin 0⟩, none⟩,
           ⟨⟨.fin 0, .fin 0⟩, ⟨.fin 0, .fin 1⟩, some ⟨.fin 2, .fin 0⟩, none⟩],
          [⟨0, none, some 2⟩, ⟨1, some 0, some 2⟩, ⟨2, some 0, none⟩], .fin 0, ⟨[], []⟩⟩ := by
      rw [VoronoiDiagram.updateEdge]
      dsimp only
      rw [hfind2]
      dsimp only
      rw [List.getD_cons_succ, List.getD_cons_zero, hADD3, hADD]
      rfl
    have hsymC : LinkSymmetric ⟨[⟨⟨.fin 0, .fin 0⟩, [0]⟩, ⟨⟨.fin 1, .fin 0⟩, [1]⟩,
        ⟨⟨.fin 0, .fin 1⟩, [2]⟩],
        [⟨⟨.fin 0, .fin 0⟩, ⟨.fin 1, .fin 0⟩, none, none⟩,
         ⟨⟨.fin 1, .fin 0⟩, ⟨.fin 0, .fin 1⟩, none, none⟩],
        [⟨0, none, some 1⟩, ⟨1, some 0, some 2⟩, ⟨2, some 1, none⟩], .fin 0, ⟨[], []⟩⟩ := by
      intro arcId hBL
      have harc : arcId = 0 ∨ arcId = 1 ∨ arcId = 2 := by
        rcases hBL with ⟨s, hs, hm⟩
        simp only [List.mem_cons, List.not_mem_nil, or_false] at hs
        rcases hs with rfl | rfl | rfl <;> simp at hm <;> omega
      rcases harc with rfl | rfl | rfl <;> constructor <;> intro z hz <;>
        first
        | (injection hz with hz ; subst hz ; rfl)
        | exact Option.noConfusion hz
    have hrangeC : ArcsInRange ⟨[⟨⟨.fin 0, .fin 0⟩, [0]⟩, ⟨⟨.fin 1, .fin 0⟩, [1]⟩,
        ⟨⟨.fin 0, .fin 1⟩, [2]⟩],
        [⟨⟨.fin 0, .fin 0⟩, ⟨.fin 1, .fin 0⟩, none, none⟩,
         ⟨⟨.fin 1, .fin 0⟩, ⟨.fin 0, .fin 1⟩, none, none⟩],
        [⟨0, none, some 1⟩, ⟨1, some 0, some 2⟩, ⟨2, some 1, none⟩], .fin 0, ⟨[], []⟩⟩ := by
      refine ⟨?_, ?_, ?_⟩
      · intro arcId hBL
        rcases hBL with ⟨s, hs, hm⟩
        simp only [List.mem_cons, List.not_mem_nil, or_false] at hs
        rcases hs with rfl | rfl | rfl <;> simp at hm <;> simp [hm]
      · intro arcId z hz
        rcases arcId with _ | _ | _ | n <;>
          first
          | (injection hz with hz ; subst hz ; simp)
          | exact Option.noConfusion hz
      · intro arcId z hz
        rcases arcId with _ | _ | _ | n <;>
          first
          | (injection hz with hz ; subst hz ; simp)
          | exact Option.noConfusion hz
    have hownC : ownedOnlyBy ⟨[⟨⟨.fin 0, .fin 0⟩, [0]⟩, ⟨⟨.fin 1, .fin 0⟩, [1]⟩,
        ⟨⟨.fin 0, .fin 1⟩, [2]⟩],
        [⟨⟨.fin 0, .fin 0⟩, ⟨.fin 1, .fin 0⟩, none, none⟩,
         ⟨⟨.fin 1, .fin 0⟩, ⟨.fin 0, .fin 1⟩, none, none⟩],
        [⟨0, none, some 1⟩, ⟨1, some 0, some 2⟩, ⟨2, some 1, none⟩], .fin 0, ⟨[], []⟩⟩ 1 := by
      refine ⟨by simp [VoronoiDiagram.getArc], ?_⟩
      intro j hj hm
      rcases j with _ | _ | _ | j
      · simp at hm
      · rfl
      · simp at hm
      · exfalso
        simp only [List.length_cons, List.length_nil] at hj
        omega
    have hC12 : VoronoiDiagram.processVertexEvent
        ⟨[⟨⟨.fin 0, .fin 0⟩, [0]⟩, ⟨⟨.fin 1, .fin 0⟩, [1]⟩, ⟨⟨.fin 0, .fin 1⟩, [2]⟩],
         [⟨⟨.fin 0, .fin 0⟩, ⟨.fin 1, .fin 0⟩, none, none⟩,
          ⟨⟨.fin 1, .fin 0⟩, ⟨.fin 0, .fin 1⟩, none, none⟩],
         [⟨0, none, some 1⟩, ⟨1, some 0, some 2⟩, ⟨2, some 1, none⟩], .fin 0, ⟨[], []⟩⟩
        ⟨(0, 1, 2), ⟨.fin 0, .fin 0⟩, ⟨.fin 2, .fin 0⟩⟩ =
        some ⟨[⟨⟨.fin 0, .fin 0⟩, [0]⟩, ⟨⟨.fin 1, .fin 0⟩, []⟩, ⟨⟨.fin 0, .fin 1⟩, [2]⟩],
          [⟨⟨.fin 0, .fin 0⟩, ⟨.fin 1, .fin 0⟩, none, some ⟨.fin 2, .fin 0⟩⟩,
           ⟨⟨.fin 1, .fin 0⟩, ⟨.fin 0, .fin 1⟩, some ⟨.fin 2, .fin 0⟩, none⟩,
           ⟨⟨.fin 0, .fin 0⟩, ⟨.fin 0, .fin 1⟩, some ⟨.fin 2, .fin 0⟩, none⟩],
          [⟨0, none, some 2⟩, ⟨1, some 0, some 2⟩, ⟨2, some 0, none⟩], .fin 0, ⟨[], []⟩⟩ := by
      have h0 : VoronoiDiagram.processVertexEvent
          ⟨[⟨⟨.fin 0, .fin 0⟩, [0]⟩, ⟨⟨.fin 1, .fin 0⟩, [1]⟩, ⟨⟨.fin 0, .fin 1⟩, [2]⟩],
           [⟨⟨.fin 0, .fin 0⟩, ⟨.fin 1, .fin 0⟩, none, none⟩,
            ⟨⟨.fin 1, .fin 0⟩, ⟨.fin 0, .fin 1⟩, none, none⟩],
           [⟨0, none, some 1⟩, ⟨1, some 0, some 2⟩, ⟨2, some 1, none⟩], .fin 0, ⟨[], []⟩⟩
          ⟨(0, 1, 2), ⟨.fin 0, .fin 0⟩, ⟨.fin 2, .fin 0⟩⟩ =
          (match VoronoiDiagram.updateEdge
            ⟨[⟨⟨.fin 0, .fin 0⟩, [0]⟩, ⟨⟨.fin 1, .fin 0⟩, []⟩, ⟨⟨.fin 0, .fin 1⟩, [2]⟩],
              [⟨⟨.fin 0, .fin 0⟩, ⟨.fin 1, .fin 0⟩, none, none⟩,
               ⟨⟨.fin 1, .fin 0⟩, ⟨.fin 0, .fin 1⟩, none, none⟩,
               addVertexToEdge ⟨⟨.fin 0, .fin 0⟩, ⟨.fin 0, .fin 1⟩, none, none⟩ ⟨.fin 2, .fin 0⟩],
              [⟨0, none, some 2⟩, ⟨1, some 0, some 2⟩, ⟨2, some 0, none⟩], .fin 0, ⟨[], []⟩⟩
            ⟨.fin 0, .fin 0⟩ ⟨.fin 1, .fin 0⟩ ⟨.fin 2, .fin 0⟩ with
          | none => none
          | some d6 => d6.updateEdge (d6.arcSite 1) (d6.arcSite 2) ⟨.fin 2, .fin 0⟩) := rfl
      rw [h0, hu1]
      exact hu2
    exact C8_link_symmetry_preserved.2.2 _ _
      ⟨(0, 1, 2), ⟨.fin 0, .fin 0⟩, ⟨.fin 2, .fin 0⟩⟩ 0 1 2 rfl hsymC hrangeC
      ⟨⟨⟨.fin 0, .fin 0⟩, [0]⟩, by simp, by simp⟩
      ⟨⟨⟨.fin 1, .fin 0⟩, [1]⟩, by simp, by simp⟩
      ⟨⟨⟨.fin 0, .fin 1⟩, [2]⟩, by simp, by simp⟩
      rfl rfl (by omega) (by omega) (by omega) hownC hC12

end Fortune
